import Mathlib

/-!
# bpm: the process manager (package `manager`) as a shallow embedding

The Go package `manager` keeps two kinds of records in one LevelDB key space
(`project-<name>` and `state-<name>`), spawns `node` processes from a
goroutine, and reconciles stored PIDs against the operating system.

Modelling conventions used below.

* The LevelDB handle `db` is a total map from keys to optional values
  (`DB`).  Reads and writes are the map operations; I/O failures of LevelDB
  itself are not modelled, so `db.Get` fails exactly when the key is absent.
* The JSON text stored under a key is represented by the record it encodes
  (`Doc`).  `json.Unmarshal` into a record of the other kind leaves the
  zero value, because the two records share no field name and every
  `json.Unmarshal` error is ignored by the callers.
* Go `int` values (PIDs, instance counts) are `Int`; the only arithmetic the
  package performs on them is the negation in `StopProject`, modelled with
  64-bit wrap-around (`negInt`).
* `time.Time` is a `Nat` instant; `0` is the zero value of `time.Time`.
* Everything the operating system or a library decides is an explicit
  input: `Env` for the probes and file operations, and the arguments `started`
  and `waited` for what `command.Start()` and `command.Wait()` answer.
* The goroutine of `StartProject` is split at its only blocking point
  (`command.Wait()`): `monitorSpawn` is the part before it, `monitorExit`
  the part after it.
-/

namespace Bpm

/-! ## Data model -/

/-- Instants of `time.Time`; `0` stands for the zero value. -/
abbrev Time := Nat

/-- The struct `node.Package` of `node/package.go`. Go maps are association lists. -/
structure Package where
  Name : String := ""
  Description : String := ""
  Version : String := ""
  Main : String := ""
  Dependencies : List (String × String) := []
  Scripts : List (String × String) := []
deriving DecidableEq, Repr

/-- The method `(*Package).GetStartScript`. -/
def Package.GetStartScript (pkg : Package) : String :=
  match pkg.Scripts.lookup "start" with
  | some val => val
  | none => ""

/-- The method `(*Package).GetMainScript`. -/
def Package.GetMainScript (pkg : Package) : String :=
  pkg.Main

/-- The struct `node.Project`. Its declaration is not part of the sources at hand; the two
fields are the ones `manager.go` and `clustermode.go` read and write. -/
structure Project where
  WorkingDir : String := ""
  Package : Package := {}
deriving DecidableEq, Repr

/-- The struct `ProjectState` of `manager/projectstate.go`. -/
structure ProjectState where
  PID : Int := 0
  StartTime : Time := 0
  EndTime : Time := 0
  LogPath : String := ""
deriving DecidableEq, Repr

/-- The method `(*ProjectState).IsRunning`: true if PID is not zero. -/
def ProjectState.IsRunning (projectstate : ProjectState) : Bool :=
  if projectstate.PID ≠ 0 then true else false

/-! ## The persistent store -/

/-- A stored value: the JSON text of a project or of a project state. -/
inductive Doc where
  | project (p : Project)
  | state (s : ProjectState)
deriving DecidableEq, Repr

/-- The LevelDB key space. -/
def DB := String → Option Doc

/-- The store after `ClearDB`. -/
def DB.empty : DB := fun _ => none

/-- Reading a key, `db.Get`. -/
def DB.get (db : DB) (key : String) : Option Doc := db key

/-- Writing a key, `db.Put`. -/
def DB.put (db : DB) (key : String) (value : Doc) : DB :=
  fun k => if k = key then some value else db k

/-- Removing a key, `db.Delete`. -/
def DB.delete (db : DB) (key : String) : DB :=
  fun k => if k = key then none else db k

def levelDBPath : String := "/tmp/bulk-pm.db"
def projectPrefixKey : String := "project-"
def statePrefixKey : String := "state-"

/-- The key `projectPrefixKey+packageName`. -/
def projectKey (packageName : String) : String := projectPrefixKey ++ packageName

/-- The key `statePrefixKey+packageName`. -/
def stateKey (packageName : String) : String := statePrefixKey ++ packageName

/-- What `json.Unmarshal(data, &projectObject)` leaves in a zero `node.Project`. -/
def unmarshalProject : Doc → Project
  | .project p => p
  | .state _ => {}

/-- What `json.Unmarshal(data, &projectState)` leaves in a zero `ProjectState`. -/
def unmarshalState : Doc → ProjectState
  | .state s => s
  | .project _ => {}

/-- The error `leveldb.ErrNotFound` as its message. -/
def errNotFound : String := "leveldb: not found"

/-! ## The environment -/

/-- The answers of the operating system and of the libraries the package calls. -/
structure Env where
  /-- The call `os.FindProcess(pid)` returns no error. -/
  findProcess : Int → Bool
  /-- The system call `kill(pid, 0)` succeeds. -/
  kill0 : Int → Bool
  /-- The error of `os.Create(path)`, `none` when the file is created. -/
  create : String → Option String
  /-- The error of writing the whole buffer to the file just created at `path`. -/
  write : String → Option String
  /-- The function `filepath.Join` on two elements. -/
  filepathJoin : String → String → String
  /-- What `json.Unmarshal(bytes, &pkg)` leaves in a zero `node.Package`; errors are ignored. -/
  unmarshalPackage : String → Package

/-- The file system: the content of every readable file. -/
def FS := String → Option String

/-- Replacing the content of a file. -/
def FS.put (fs : FS) (path : String) (content : String) : FS :=
  fun p => if p = path then some content else fs p

/-- The mutable world the package acts on. -/
structure World where
  db : DB
  fs : FS

/-! ## `manager/utils.go` -/

/-- The method `(*os.Process).Signal(syscall.Signal(0))` of the Go standard library on Unix:
a `Process` whose `Pid` is `-1` ("process already released") or `0` ("process not
initialized") is refused before the kernel is asked; otherwise the result is the one of
`kill(pid, 0)`. True means no error. -/
def signal0 (env : Env) (pid : Int) : Bool :=
  if pid = -1 then false
  else if pid = 0 then false
  else env.kill0 pid

/-- The function `IsProcessRunning`. -/
def IsProcessRunning (env : Env) (pid : Int) : Bool :=
  if !env.findProcess pid then false
  else if !signal0 env pid then false
  else true

/-! ## `manager/manager.go`: registry and state store -/

/-- The function `GetProject`. -/
def GetProject (db : DB) (packageName : String) : Except String Project :=
  match db.get (projectKey packageName) with
  | none => .error errNotFound
  | some projectData => .ok (unmarshalProject projectData)

/-- The function `SaveProjectState`. Marshalling a `ProjectState` and `db.Put` do not fail
in this model, so the returned error is always nil. -/
def SaveProjectState (db : DB) (packageName : String) (projectState : ProjectState) :
    Option String × DB :=
  (none, db.put (stateKey packageName) (.state projectState))

/-- The function `GetProjectState`: the returned pair and the store after the call. -/
def GetProjectState (env : Env) (db : DB) (packageName : String) :
    Except String ProjectState × DB :=
  match db.get (stateKey packageName) with
  | none => (.error errNotFound, db)
  | some projectStateData =>
    let projectState := unmarshalState projectStateData
    if projectState.IsRunning then
      if !IsProcessRunning env projectState.PID then
        let projectState := { projectState with PID := 0 }
        (.ok projectState, (SaveProjectState db packageName projectState).2)
      else (.ok projectState, db)
    else (.ok projectState, db)

/-- The constant `node.NodePackageFile`. -/
def NodePackageFile : String := "package.json"

/-- The function `AddProject`: the returned error and the store after the call. -/
def AddProject (env : Env) (w : World) (workingDir : String) : Option String × DB :=
  let packageFilePath := workingDir ++ "/" ++ NodePackageFile
  match w.fs packageFilePath with
  | none => (some (NodePackageFile ++ " is not found in " ++ workingDir), w.db)
  | some packageBytes =>
    let projectObject : Project :=
      { WorkingDir := workingDir, Package := env.unmarshalPackage packageBytes }
    if projectObject.Package.Name = "" then
      (some "package name is empty", w.db)
    else if projectObject.Package.GetMainScript = "" then
      (some "main script definition is mandatory", w.db)
    else
      (none, w.db.put (projectKey projectObject.Package.Name) (.project projectObject))

/-- The function `RemoveProject`: the returned error and the store after the call. -/
def RemoveProject (env : Env) (db : DB) (packageName : String) : Option String × DB :=
  match GetProject db packageName with
  | .error err => (some err, db)
  | .ok _ =>
    let (projectStatus, db1) := GetProjectState env db packageName
    match projectStatus with
    | .ok st =>
      if st.IsRunning then (some "project is running", db1)
      else (none, (db1.delete (projectKey packageName)).delete (stateKey packageName))
    | .error _ => (none, (db1.delete (projectKey packageName)).delete (stateKey packageName))

/-! ## `manager/clustermode.go` -/

def ClusterModeScript : String := "cluster_mode_script.js"

/-- The function `getClusterModeScript`: the template with `%d` and `%s` filled in. -/
def getClusterModeScript (scriptPath : String) (processCount : Int) : String :=
  "\nvar cluster = require(\x27cluster\x27);\nif (cluster.isMaster) \x7b\n\tfor (var i = 0; i < "
    ++ toString processCount
    ++ "; i++) \x7b\n\t\tcluster.fork();\n\t\x7d\n\x7d else \x7b\n\t// Require main script path\n\trequire(\x27"
    ++ scriptPath
    ++ "\x27);\n\x7d\n"

/-- The function `CreateClusterModeScript`: the returned error and the files after the
call. `os.Create` truncates the file; a write that fails leaves it as created. -/
def CreateClusterModeScript (env : Env) (fs : FS) (project : Project) (processCount : Int) :
    Option String × FS :=
  let clusterModeScriptName := env.filepathJoin project.WorkingDir ClusterModeScript
  match env.create clusterModeScriptName with
  | some fileErr => (some fileErr, fs)
  | none =>
    let fs1 := fs.put clusterModeScriptName ""
    match env.write clusterModeScriptName with
    | some writeErr => (some writeErr, fs1)
    | none =>
      (none, fs1.put clusterModeScriptName
        (getClusterModeScript ("./" ++ project.Package.GetMainScript) processCount))

/-! ## `manager/manager.go`: the supervisor -/

/-- A channel `chan *ProjectState`, by identity. -/
abbrev Chan := Nat

/-- The variables the goroutine of `StartProject` captures. -/
structure Launch where
  packageName : String
  clusterProcesses : Int
  procStateChannel : Option Chan
  mainScript : String
  projectData : Project
deriving DecidableEq, Repr

/-- What a call of `StartProject` leaves behind: the returned error, the world after the
synchronous part, and the goroutine it started, if any. -/
structure StartOutcome where
  err : Option String
  world : World
  launch : Option Launch

/-- The function `StartProject` up to its `return`: the checks, the launcher script, and the
`go func()` statement, whose body is `monitorSpawn` followed by `monitorExit`. -/
def StartProject (env : Env) (w : World) (packageName : String) (clusterProcesses : Int)
    (procStateChannel : Option Chan) : StartOutcome :=
  match GetProject w.db packageName with
  | .error _ => { err := some "project is not found", world := w, launch := none }
  | .ok projectData =>
    let (projectState, db1) := GetProjectState env w.db packageName
    let w1 : World := { w with db := db1 }
    let running : Bool :=
      match projectState with
      | .ok st => st.IsRunning
      | .error _ => false
    if running then
      { err := some "project is already running", world := w1, launch := none }
    else
      let mainScript := projectData.Package.GetMainScript
      if mainScript = "" then
        { err := some "project has no main script", world := w1, launch := none }
      else if clusterProcesses > 0 then
        match CreateClusterModeScript env w1.fs projectData clusterProcesses with
        | (some _, fs1) =>
          { err := some "can\x27t create the cluster mode script",
            world := { w1 with fs := fs1 }, launch := none }
        | (none, fs1) =>
          { err := none, world := { w1 with fs := fs1 },
            launch := some ⟨packageName, clusterProcesses, procStateChannel,
              ClusterModeScript, projectData⟩ }
      else
        { err := none, world := w1,
          launch := some ⟨packageName, clusterProcesses, procStateChannel,
            mainScript, projectData⟩ }

/-- What the goroutine does that an observer can see. -/
inductive Event where
  /-- The command `node <script>` is started in `dir` as a process-group leader with its
  output redirected to `logPath` (`command.Start()`, successful or not). -/
  | exec (script dir logPath : String)
  /-- A call `SaveProjectState(packageName, st)`. -/
  | save (packageName : String) (st : ProjectState)
  /-- A delivery `procStateChannel <- st`; `st` is the value pointed to at that moment. -/
  | send (ch : Chan) (st : ProjectState)
  /-- A line written with `log.Printf`. -/
  | log (msg : String)
  /-- A call `StartProject(packageName, clusterProcesses, procStateChannel)`. -/
  | start (packageName : String) (clusterProcesses : Int) (ch : Option Chan)
deriving DecidableEq, Repr

/-- The deliveries `if procStateChannel != nil { procStateChannel <- st }`. -/
def deliver (procStateChannel : Option Chan) (st : ProjectState) : List Event :=
  match procStateChannel with
  | some ch => [.send ch st]
  | none => []

/-- A goroutine blocked in `command.Wait()`: its captured variables, `command.Process.Pid`
and the state `runningProjectState` points to. -/
structure Monitor where
  launch : Launch
  pid : Int
  runningProjectState : ProjectState
deriving DecidableEq, Repr

/-- The result of the first part of the goroutine. -/
structure SpawnOutcome where
  world : World
  trace : List Event
  monitor : Option Monitor

/-- The goroutine of `StartProject` from its first statement to the call of
`command.Wait()`. `started` is the answer of `command.Start()`: `none` for an error,
`some pid` for a running process; `now` is the reading of `time.Now()`. -/
def monitorSpawn (env : Env) (w : World) (l : Launch) (started : Option Int) (now : Time) :
    SpawnOutcome :=
  let logPath := "/tmp/" ++ l.packageName ++ ".log"
  let fs1 : FS :=
    match env.create logPath with
    | none => w.fs.put logPath ""
    | some _ => w.fs
  let w1 : World := { w with fs := fs1 }
  let ev := Event.exec l.mainScript l.projectData.WorkingDir logPath
  match started with
  | none => { world := w1, trace := [ev], monitor := none }
  | some pid =>
    let runningProjectState : ProjectState :=
      { PID := pid, LogPath := logPath, StartTime := now }
    let db1 := (SaveProjectState w1.db l.packageName runningProjectState).2
    { world := { w1 with db := db1 },
      trace := [ev, .save l.packageName runningProjectState]
        ++ deliver l.procStateChannel runningProjectState,
      monitor := some ⟨l, pid, runningProjectState⟩ }

/-- The answer of `command.Wait()`: whether the returned error is non-nil, and the raw
`syscall.WaitStatus` of `command.ProcessState`. -/
structure WaitResult where
  procError : Bool
  status : Nat
deriving DecidableEq, Repr

/-- The result of the second part of the goroutine; `restart` is the outcome of the
`StartProject` call it made, if it made one. -/
structure ExitOutcome where
  world : World
  trace : List Event
  restart : Option StartOutcome

/-- The goroutine of `StartProject` from the return of `command.Wait()` to its end. `w` is
the world at that moment, `now` the reading of `time.Now()`. -/
def monitorExit (env : Env) (w : World) (m : Monitor) (waited : WaitResult) (now : Time) :
    ExitOutcome :=
  let l := m.launch
  let runningProjectState : ProjectState :=
    { m.runningProjectState with EndTime := now, PID := 0 }
  let db1 := (SaveProjectState w.db l.packageName runningProjectState).2
  let w1 : World := { w with db := db1 }
  let tr := [Event.save l.packageName runningProjectState]
    ++ deliver l.procStateChannel runningProjectState
  if waited.procError then
    let errorCode := waited.status
    if errorCode ≠ 9 ∧ errorCode ≠ 0 then
      let msg := "Process " ++ toString m.pid ++ " of package " ++ l.packageName
        ++ " is crashed, autorestart is activated\n"
      let out := StartProject env w1 l.packageName l.clusterProcesses l.procStateChannel
      let failed : List Event :=
        match out.err with
        | some _ => [.log ("package " ++ l.packageName ++ " is failed to auto restart itself\n")]
        | none => []
      { world := out.world,
        trace := tr ++ [.log msg, .start l.packageName l.clusterProcesses l.procStateChannel]
          ++ failed,
        restart := some out }
    else { world := w1, trace := tr, restart := none }
  else { world := w1, trace := tr, restart := none }

/-- The signal number `syscall.SIGKILL`. -/
def SIGKILL : Nat := 9

/-- Reduction of an integer to the range of a Go `int` (64 bits, two's complement). -/
def wrapInt (x : Int) : Int := (x + 2 ^ 63) % 2 ^ 64 - 2 ^ 63

/-- Go's unary minus on `int`. -/
def negInt (x : Int) : Int := wrapInt (-x)

/-- What a call of `StopProject` leaves behind: the returned error, the store, and the
calls `syscall.Kill(pid, sig)` it made. -/
structure StopOutcome where
  err : Option String
  db : DB
  kills : List (Int × Nat)

/-- The function `StopProject`. -/
def StopProject (env : Env) (db : DB) (packageName : String) : StopOutcome :=
  let (projectState, db1) := GetProjectState env db packageName
  match projectState with
  | .error _ => { err := some "project is not running", db := db1, kills := [] }
  | .ok st =>
    if !st.IsRunning then { err := some "project is not running", db := db1, kills := [] }
    else { err := none, db := db1, kills := [(negInt st.PID, SIGKILL)] }

/-! ## Wait statuses -/

/-- How a child process ended, as `wait4` reports it. -/
inductive Termination where
  /-- The process called `exit(code)`. -/
  | exited (code : Nat)
  /-- The process was terminated by signal `sig`; `core` tells whether it dumped core. -/
  | signaled (sig : Nat) (core : Bool)
deriving DecidableEq, Repr

/-- The terminations the kernel produces: exit codes are 0..255, signal numbers fill the
seven low bits without being 0 (an exit) or 0x7F (a stop), and SIGKILL never dumps core. -/
def Termination.WellFormed : Termination → Prop
  | .exited code => code < 256
  | .signaled sig core => 1 ≤ sig ∧ sig < 0x7F ∧ (sig = 9 → core = false)

/-- The raw `syscall.WaitStatus` of a termination (Unix layout: the exit code in bits 8..15,
the signal number in bits 0..6, the core flag in bit 7). -/
def Termination.status : Termination → Nat
  | .exited code => code <<< 8
  | .signaled sig core => sig ||| (if core then 0x80 else 0)

/-- The method `(*os.ProcessState).Success`: the process exited with status 0. -/
def Termination.Success : Termination → Bool
  | .exited code => code = 0
  | .signaled _ _ => false

/-- The answer of `command.Wait()` for a termination: an `*exec.ExitError` unless the
process exited with status 0. -/
def Termination.waited (t : Termination) : WaitResult :=
  { procError := !t.Success, status := t.status }

/-! ## `manager/manager.go`: status of all projects -/

/-- The map `map[string]ProjectState` built by `GetStatus`. -/
def StatusMap := String → Option ProjectState

/-- The statements `if projectState == nil { projectState = &ProjectState{PID: 0} }`. -/
def stateOrStopped : Except String ProjectState → ProjectState
  | .ok st => st
  | .error _ => { PID := 0 }

/-- The loop `for projectIter.Next() { ... }` of `GetStatus` over the entries the iterator
yields, with the map and the store threaded through. -/
def statusLoop (env : Env) : List (String × Doc) → StatusMap → DB → StatusMap × DB
  | [], stateMap, db => (stateMap, db)
  | (_, value) :: rest, stateMap, db =>
    let projectData := unmarshalProject value
    let (projectState, db1) := GetProjectState env db projectData.Package.Name
    let st := stateOrStopped projectState
    statusLoop env rest
      (fun k => if k = projectData.Package.Name then some st else stateMap k) db1

/-- The function `GetStatus`. `projectIter` is the sequence of entries the LevelDB iterator
over `util.BytesPrefix(projectPrefixKey)` yields (a snapshot of the store taken when the
iterator is created). The result is the map and the store after the call. -/
def GetStatus (env : Env) (db : DB) (projectIter : List (String × Doc)) : StatusMap × DB :=
  statusLoop env projectIter (fun _ => none) db

/-- The contract of the LevelDB iterator: it yields each entry of the store whose key
starts with `projectPrefixKey` exactly once. -/
def IsProjectIter (db : DB) (projectIter : List (String × Doc)) : Prop :=
  (projectIter.map Prod.fst).Nodup ∧
  ∀ k v, (k, v) ∈ projectIter ↔ ((∃ name, k = projectKey name) ∧ db.get k = some v)

/-- The stores `AddProject` builds: the descriptor under `project-<name>` declares the
package name `<name>`. -/
def DescriptorsNamed (db : DB) : Prop :=
  ∀ name doc, db.get (projectKey name) = some doc →
    (unmarshalProject doc).Package.Name = name

/-! ## `manager/manager.go`: the log reader

The package reads the log with `tail.TailFile` of `github.com/hpcloud/tail`. With
`Follow: false` and no `Location`, that library reads the file from its beginning to the
end of file, sends every line on `t.Lines`, and closes the channel; `MaxLineSize`, "if
non-zero, split longer lines into multiple lines", bounds the length of a line, not the
number of lines. Texts are sequences of one-byte characters. -/

/-- The lines `(*Tail).readLine` yields up to the end of file: the text is cut after every
newline, the newline is trimmed, and a last fragment without newline is sent only if it is
not empty. `acc` holds the current line, reversed. -/
def readLines : List Char → List Char → List (List Char)
  | acc, [] => if acc = [] then [] else [acc.reverse]
  | acc, c :: cs => if c = '\n' then acc.reverse :: readLines [] cs else readLines (c :: acc) cs

/-- The loop of `util.PartitionString(s, chunkSize)` for `chunkSize > 0`, with the length of
`s` as the bound on the number of rounds. -/
def partitionLoop (chunkSize : Nat) : Nat → List Char → List (List Char)
  | 0, s => [s]
  | fuel + 1, s =>
    if s.length ≤ chunkSize then [s]
    else s.take chunkSize :: partitionLoop chunkSize fuel (s.drop chunkSize)

/-- The function `util.PartitionString`. -/
def PartitionString (s : List Char) (chunkSize : Nat) : List (List Char) :=
  partitionLoop chunkSize s.length s

/-- The method `(*Tail).sendLine`: the pieces of one line that are sent on `t.Lines`. -/
def sendLine (maxLineSize : Int) (line : List Char) : List String :=
  if maxLineSize > 0 ∧ (line.length : Int) > maxLineSize then
    (PartitionString line maxLineSize.toNat).map String.mk
  else [String.mk line]

/-- The function `tail.TailFile(path, tail.Config{Follow: false, MaxLineSize: maxLineSize})`
followed by the collection of `t.Lines`: every line of the file from its beginning, in
pieces of at most `maxLineSize` when that is positive. `none` when the file cannot be
opened: the library then waits for the file to appear and the caller does not return. -/
def TailFile (fs : FS) (path : String) (maxLineSize : Int) : Option (List String) :=
  match fs path with
  | none => none
  | some content => some ((readLines [] content.data).flatMap (sendLine maxLineSize))

/-- The function `GetProjectLogContent`: the returned pair (`none` when the call does not
return) and the store after the call. -/
def GetProjectLogContent (env : Env) (w : World) (packageName : String) (numOfLines : Int) :
    Option (Except String (List String)) × DB :=
  match GetProjectState env w.db packageName with
  | (.error _, db1) => (some (.error "Can\x27t get project status"), db1)
  | (.ok projState, db1) =>
    if projState.LogPath = "" then (some (.error "Logfile is not created"), db1)
    else
      match TailFile w.fs projState.LogPath numOfLines with
      | none => (none, db1)
      | some logLines => (some (.ok logLines), db1)

/-! ## Interleavings

The package holds no lock. Its callers and its goroutines interleave at the granularity of
the four pieces of code modelled above: a call of `StartProject` up to its return, a
goroutine up to `command.Wait()`, a goroutine after `command.Wait()`, and a call of
`StopProject`. A schedule is a list of such steps. -/

/-- The state of the running system: the world, the goroutines that `StartProject` has
started and that have not yet reached `command.Start()`, and the goroutines blocked in
`command.Wait()`, one for each live child process. -/
structure Sys where
  world : World
  pending : List Launch
  monitors : List Monitor

/-- The environment seen in a state: the children being waited for are alive; the answer
for any other PID is the one of `base`. -/
def Sys.env (base : Env) (s : Sys) : Env :=
  { base with kill0 := fun pid => decide (pid ∈ s.monitors.map Monitor.pid) || base.kill0 pid }

/-- One step of a schedule. -/
inductive Action where
  /-- A caller runs `StartProject(packageName, clusterProcesses, ch)` to its return. -/
  | start (packageName : String) (clusterProcesses : Int) (ch : Option Chan)
  /-- The pending goroutine number `i` runs to `command.Wait()`; `command.Start()` answers
  `started` and the clock reads `now`. -/
  | spawn (i : Nat) (started : Option Int) (now : Time)
  /-- The child of monitor number `i` ends with `waited`; the goroutine runs to its end. -/
  | exit (i : Nat) (waited : WaitResult) (now : Time)
  /-- A caller runs `StopProject(packageName)` to its return. -/
  | stop (packageName : String)

/-- The effect of one step. -/
def Sys.step (base : Env) (s : Sys) : Action → Sys
  | .start packageName clusterProcesses ch =>
    let out := StartProject (s.env base) s.world packageName clusterProcesses ch
    { world := out.world, pending := s.pending ++ out.launch.toList, monitors := s.monitors }
  | .spawn i started now =>
    match s.pending[i]? with
    | none => s
    | some l =>
      let out := monitorSpawn (s.env base) s.world l started now
      { world := out.world, pending := s.pending.eraseIdx i,
        monitors := s.monitors ++ out.monitor.toList }
  | .exit i waited now =>
    match s.monitors[i]? with
    | none => s
    | some m =>
      let s1 : Sys := { s with monitors := s.monitors.eraseIdx i }
      let out := monitorExit (s1.env base) s1.world m waited now
      { world := out.world,
        pending := s1.pending ++ (out.restart.bind StartOutcome.launch).toList,
        monitors := s1.monitors }
  | .stop packageName =>
    let out := StopProject (s.env base) s.world.db packageName
    { s with world := { s.world with db := out.db } }

/-- The state after a schedule. -/
def Sys.run (base : Env) (s : Sys) (schedule : List Action) : Sys :=
  schedule.foldl (Sys.step base) s

/-- The PIDs of the live children of a project. -/
def Sys.live (s : Sys) (packageName : String) : List Int :=
  (s.monitors.filter (fun m => m.launch.packageName = packageName)).map Monitor.pid

/-! ## Concrete inputs used to exercise the theorems -/

/-- An operating system on which exactly process 42 is alive and every file operation
succeeds. -/
def envLive42 : Env where
  findProcess := fun _ => true
  kill0 := fun pid => decide (pid = 42)
  create := fun _ => none
  write := fun _ => none
  filepathJoin := fun dir file => dir ++ "/" ++ file
  unmarshalPackage := fun _ => {}

/-- A store whose state entry of `app` records PID 7, started at instant 100. -/
def dbStale : DB :=
  DB.empty.put (stateKey "app") (.state { PID := 7, StartTime := 100, LogPath := "/tmp/app.log" })

/-- A world with an empty store and no files. -/
def worldEmpty : World := { db := DB.empty, fs := fun _ => none }

/-- A store in which `app` is registered with main script `index.js` and was never
started. -/
def dbApp : DB :=
  DB.empty.put (projectKey "app")
    (.project { WorkingDir := "/srv/app", Package := { Name := "app", Main := "index.js" } })

/-- The world of `dbApp` without files. -/
def worldApp : World := { db := dbApp, fs := fun _ => none }

/-- A store in which `app` is registered and its last run has ended. -/
def dbStopped : DB :=
  dbApp.put (stateKey "app")
    (.state { PID := 0, StartTime := 100, EndTime := 200, LogPath := "/tmp/app.log" })

/-- A world in which `app` is registered and its state entry still records PID 7. -/
def worldStaleApp : World where
  db := dbApp.put (stateKey "app")
    (.state { PID := 7, StartTime := 100, LogPath := "/tmp/app.log" })
  fs := fun _ => none

/-- The goroutine `StartProject` starts for `app` in `worldApp` with channel 1. -/
def launchApp : Launch :=
  ⟨"app", 0, some 1, "index.js",
    { WorkingDir := "/srv/app", Package := { Name := "app", Main := "index.js" } }⟩

/-- A monitor of project `app` whose process 42 was started at instant 100 without a
channel. -/
def monitorApp : Monitor where
  launch := ⟨"app", 0, none, "index.js",
    { WorkingDir := "/srv/app", Package := { Name := "app", Main := "index.js" } }⟩
  pid := 42
  runningProjectState := { PID := 42, StartTime := 100, LogPath := "/tmp/app.log" }

/-- An operating system like `envLive42` on which no file can be created. -/
def envNoCreate : Env where
  findProcess := fun _ => true
  kill0 := fun pid => decide (pid = 42)
  create := fun _ => some "permission denied"
  write := fun _ => none
  filepathJoin := fun dir file => dir ++ "/" ++ file
  unmarshalPackage := fun _ => {}

/-- A world in which `app` is registered and runs as process 42. -/
def worldRunningApp : World where
  db := dbApp.put (stateKey "app")
    (.state { PID := 42, StartTime := 100, LogPath := "/tmp/app.log" })
  fs := fun _ => none

/-- An environment like `envLive42` whose manifest reader finds the name `app` and a start
script, but no main script. -/
def envStartOnly : Env where
  findProcess := fun _ => true
  kill0 := fun pid => decide (pid = 42)
  create := fun _ => none
  write := fun _ => none
  filepathJoin := fun dir file => dir ++ "/" ++ file
  unmarshalPackage := fun _ => { Name := "app", Scripts := [("start", "node index.js")] }

/-- The text of a manifest that declares the name `app` and a start script only. -/
def manifestStartOnly : String :=
  "\x7b\"name\": \"app\", \"scripts\": \x7b\"start\": \"node index.js\"\x7d\x7d"

/-- A world with an empty store whose only file is the manifest of `/srv/app`. -/
def worldManifest : World where
  db := DB.empty
  fs := fun path => if path = "/srv/app/package.json" then some manifestStartOnly else none

/-- An environment like `envLive42` whose manifest reader finds the name `app` and the main
script `index.js`. -/
def envMain : Env where
  findProcess := fun _ => true
  kill0 := fun pid => decide (pid = 42)
  create := fun _ => none
  write := fun _ => none
  filepathJoin := fun dir file => dir ++ "/" ++ file
  unmarshalPackage := fun _ => { Name := "app", Main := "index.js" }

/-- An operating system on which no process other than the monitored children is alive. -/
def envQuiet : Env where
  findProcess := fun _ => true
  kill0 := fun _ => false
  create := fun _ => none
  write := fun _ => none
  filepathJoin := fun dir file => dir ++ "/" ++ file
  unmarshalPackage := fun _ => {}

/-- The text of a manifest that declares the name `app` and the main script `index.js`. -/
def manifestMain : String :=
  "\x7b\"name\": \"app\", \"main\": \"index.js\"\x7d"

/-- A world with an empty store whose only file is the manifest `manifestMain` of
`/srv/app`. -/
def worldManifestMain : World where
  db := DB.empty
  fs := fun path => if path = "/srv/app/package.json" then some manifestMain else none

/-- The descriptor of `app` in `dbApp`. -/
def docApp : Doc :=
  .project { WorkingDir := "/srv/app", Package := { Name := "app", Main := "index.js" } }

/-- A world in which `app` is stopped and its log holds seven lines. -/
def worldLog : World where
  db := dbStopped
  fs := fun path => if path = "/tmp/app.log" then some "l1\nl2\nl3\nl4\nl5\nl6\nl7\n" else none

/-- A world in which `app` is stopped and its log holds one line of eight characters. -/
def worldLongLine : World where
  db := dbStopped
  fs := fun path => if path = "/tmp/app.log" then some "abcdefgh\n" else none

/-- The system in which `app` is registered, never started, and nothing runs. -/
def sysApp : Sys := { world := worldApp, pending := [], monitors := [] }

/-! ## Keys and store operations -/

theorem projectKey_inj {a b : String} : projectKey a = projectKey b ↔ a = b := by
  constructor
  · intro h
    have h2 := congrArg String.data h
    simp only [projectKey, String.data_append] at h2
    exact String.ext (List.append_cancel_left h2)
  · rintro rfl; rfl

theorem stateKey_inj {a b : String} : stateKey a = stateKey b ↔ a = b := by
  constructor
  · intro h
    have h2 := congrArg String.data h
    simp only [stateKey, String.data_append] at h2
    exact String.ext (List.append_cancel_left h2)
  · rintro rfl; rfl

theorem projectKey_ne_stateKey (a b : String) : projectKey a ≠ stateKey b := by
  intro h
  have h2 := congrArg String.data h
  simp [projectKey, stateKey, projectPrefixKey, statePrefixKey, String.data_append] at h2

@[simp] theorem DB.get_put_self (db : DB) (k : String) (v : Doc) : (db.put k v).get k = some v := by
  simp [DB.get, DB.put]

theorem DB.get_put_of_ne (db : DB) {k k2 : String} (v : Doc) (h : k2 ≠ k) :
    (db.put k v).get k2 = db.get k2 := by
  simp [DB.get, DB.put, h]

@[simp] theorem DB.get_delete_self (db : DB) (k : String) : (db.delete k).get k = none := by
  simp [DB.get, DB.delete]

theorem DB.get_delete_of_ne (db : DB) {k k2 : String} (h : k2 ≠ k) :
    (db.delete k).get k2 = db.get k2 := by
  simp [DB.get, DB.delete, h]

theorem DB.delete_put (db : DB) (k : String) (v : Doc) : (db.put k v).delete k = db.delete k := by
  funext x
  by_cases hx : x = k <;> simp [DB.delete, DB.put, hx]

theorem DB.put_put (db : DB) (k : String) (v v2 : Doc) : (db.put k v).put k v2 = db.put k v2 := by
  funext x
  by_cases hx : x = k <;> simp [DB.put, hx]

theorem IsRunning_iff (s : ProjectState) : s.IsRunning = true ↔ s.PID ≠ 0 := by
  unfold ProjectState.IsRunning
  by_cases h : s.PID = 0 <;> simp [h]

theorem IsProcessRunning_zero (env : Env) : IsProcessRunning env 0 = false := by
  simp [IsProcessRunning, signal0]

/-! ## Reading the runtime state -/

/-- The three ways `GetProjectState` can go, by the stored entry and the liveness answer. -/
theorem GetProjectState_cases (env : Env) (db : DB) (packageName : String) :
    (db.get (stateKey packageName) = none ∧
        GetProjectState env db packageName = (.error errNotFound, db)) ∨
    (∃ doc, db.get (stateKey packageName) = some doc ∧
        ((unmarshalState doc).PID = 0 ∨ IsProcessRunning env (unmarshalState doc).PID = true) ∧
        GetProjectState env db packageName = (.ok (unmarshalState doc), db)) ∨
    (∃ doc, db.get (stateKey packageName) = some doc ∧
        (unmarshalState doc).PID ≠ 0 ∧ IsProcessRunning env (unmarshalState doc).PID = false ∧
        GetProjectState env db packageName =
          (.ok { unmarshalState doc with PID := 0 },
           db.put (stateKey packageName) (.state { unmarshalState doc with PID := 0 }))) := by
  unfold GetProjectState
  cases hget : db.get (stateKey packageName) with
  | none => left; simp
  | some doc =>
    right
    by_cases hpid : (unmarshalState doc).PID = 0
    · left
      refine ⟨doc, rfl, Or.inl hpid, ?_⟩
      have hr : (unmarshalState doc).IsRunning = false := by
        simp [ProjectState.IsRunning, hpid]
      simp [hr]
    · have hr : (unmarshalState doc).IsRunning = true := (IsRunning_iff _).2 hpid
      cases halive : IsProcessRunning env (unmarshalState doc).PID with
      | true =>
        left
        exact ⟨doc, rfl, Or.inr halive, by simp [hr, halive]⟩
      | false =>
        right
        exact ⟨doc, rfl, hpid, halive, by simp [hr, halive, SaveProjectState]⟩

/-- C1: whenever `GetProjectState` returns a state, its PID is nonzero exactly when the
operating system reports that process alive; a stale stored PID is returned as 0. -/
theorem GetProjectState_pid_iff_alive (env : Env) (db : DB) (packageName : String)
    (s : ProjectState) (h : (GetProjectState env db packageName).1 = .ok s) :
    s.PID ≠ 0 ↔ IsProcessRunning env s.PID = true := by
  rcases GetProjectState_cases env db packageName with ⟨_, hr⟩ | ⟨doc, _, hc, hr⟩ |
      ⟨doc, _, _, _, hr⟩
  · rw [hr] at h; cases h
  · rw [hr] at h
    injection h with h
    subst h
    rcases hc with h0 | h1
    · simp [h0, IsProcessRunning_zero]
    · constructor
      · intro _; exact h1
      · intro _ h0
        rw [h0, IsProcessRunning_zero] at h1
        cases h1
  · rw [hr] at h
    injection h with h
    subst h
    simp [IsProcessRunning_zero]

/-- C1 at a stale entry: PID 7 is stored, only process 42 is alive, and the state returned
has PID 0, which the operating system does not report alive. -/
theorem GetProjectState_pid_iff_alive_witness :
    (GetProjectState envLive42 dbStale "app").1
        = .ok { PID := 0, StartTime := 100, LogPath := "/tmp/app.log" } ∧
      ((0 : Int) ≠ 0 ↔ IsProcessRunning envLive42 0 = true) :=
  ⟨rfl, GetProjectState_pid_iff_alive envLive42 dbStale "app"
      { PID := 0, StartTime := 100, LogPath := "/tmp/app.log" } rfl⟩

theorem GetProjectState_absent (env : Env) (db : DB) (packageName : String)
    (hget : db.get (stateKey packageName) = none) :
    GetProjectState env db packageName = (.error errNotFound, db) := by
  simp [GetProjectState, hget]

theorem GetProjectState_fresh (env : Env) (db : DB) (packageName : String) (doc : Doc)
    (hget : db.get (stateKey packageName) = some doc)
    (hc : (unmarshalState doc).PID = 0 ∨ IsProcessRunning env (unmarshalState doc).PID = true) :
    GetProjectState env db packageName = (.ok (unmarshalState doc), db) := by
  rcases GetProjectState_cases env db packageName with ⟨hn, _⟩ | ⟨d, hd, _, hr⟩ |
      ⟨d, hd, hp, ha, _⟩
  · rw [hget] at hn; cases hn
  · rw [hget] at hd; cases hd; exact hr
  · rw [hget] at hd; cases hd
    rcases hc with h0 | h1
    · exact absurd h0 hp
    · rw [ha] at h1; cases h1

theorem GetProjectState_stale (env : Env) (db : DB) (packageName : String) (doc : Doc)
    (hget : db.get (stateKey packageName) = some doc)
    (hp : (unmarshalState doc).PID ≠ 0)
    (ha : IsProcessRunning env (unmarshalState doc).PID = false) :
    GetProjectState env db packageName =
      (.ok { unmarshalState doc with PID := 0 },
       db.put (stateKey packageName) (.state { unmarshalState doc with PID := 0 })) := by
  rcases GetProjectState_cases env db packageName with ⟨hn, _⟩ | ⟨d, hd, hc, _⟩ |
      ⟨d, hd, _, _, hr⟩
  · rw [hget] at hn; cases hn
  · rw [hget] at hd; cases hd
    rcases hc with h0 | h1
    · exact absurd h0 hp
    · rw [ha] at h1; cases h1
  · rw [hget] at hd; cases hd; exact hr

/-- Reading twice in a row with the same liveness answers gives the same result and the
same store as reading once. -/
theorem GetProjectState_idem (env : Env) (db : DB) (packageName : String) :
    GetProjectState env (GetProjectState env db packageName).2 packageName
      = GetProjectState env db packageName := by
  rcases GetProjectState_cases env db packageName with ⟨hn, hr⟩ | ⟨d, hd, hc, hr⟩ |
      ⟨d, hd, hp, ha, hr⟩
  · rw [hr]; exact GetProjectState_absent env db packageName hn
  · rw [hr]; exact GetProjectState_fresh env db packageName d hd hc
  · rw [hr]
    have h := GetProjectState_fresh env
      (db.put (stateKey packageName) (.state { unmarshalState d with PID := 0 })) packageName
      (.state { unmarshalState d with PID := 0 }) (DB.get_put_self _ _ _) (Or.inl rfl)
    rw [h]
    simp only [unmarshalState, DB.put_put]

/-- C8: reconciliation is persisted and touches only the PID. A stored nonzero PID that the
operating system reports gone is returned as 0 with the other three fields unchanged, and
exactly that state is written under the state key of the project, no other key changing; a
stored PID that is 0 or alive (or a missing entry) causes no write; and an immediately
repeated read returns the same result and leaves the store as the first read left it. -/
theorem GetProjectState_reconcile_persisted (env : Env) (db : DB) (packageName : String) :
    (∀ doc, db.get (stateKey packageName) = some doc →
      (unmarshalState doc).PID ≠ 0 → IsProcessRunning env (unmarshalState doc).PID = false →
      ∃ s, (GetProjectState env db packageName).1 = .ok s ∧ s.PID = 0 ∧
        s.StartTime = (unmarshalState doc).StartTime ∧
        s.EndTime = (unmarshalState doc).EndTime ∧
        s.LogPath = (unmarshalState doc).LogPath ∧
        (GetProjectState env db packageName).2 = db.put (stateKey packageName) (.state s) ∧
        ∀ k, k ≠ stateKey packageName →
          (GetProjectState env db packageName).2.get k = db.get k) ∧
    (∀ doc, db.get (stateKey packageName) = some doc →
      ((unmarshalState doc).PID = 0 ∨ IsProcessRunning env (unmarshalState doc).PID = true) →
      GetProjectState env db packageName = (.ok (unmarshalState doc), db)) ∧
    (db.get (stateKey packageName) = none →
      GetProjectState env db packageName = (.error errNotFound, db)) ∧
    GetProjectState env (GetProjectState env db packageName).2 packageName
      = GetProjectState env db packageName := by
  refine ⟨?_, ?_, ?_, GetProjectState_idem env db packageName⟩
  · intro doc hget hp ha
    rw [GetProjectState_stale env db packageName doc hget hp ha]
    exact ⟨_, rfl, rfl, rfl, rfl, rfl, rfl, fun k hk => DB.get_put_of_ne db _ hk⟩
  · intro doc hget hc
    exact GetProjectState_fresh env db packageName doc hget hc
  · intro hget
    exact GetProjectState_absent env db packageName hget

/-- C8 at a stale entry: PID 7 is stored and not alive; the read returns PID 0 and writes
that state. -/
theorem GetProjectState_reconcile_persisted_witness :
    ∃ s, (GetProjectState envLive42 dbStale "app").1 = .ok s ∧ s.PID = 0 ∧
      s.StartTime = 100 ∧ s.EndTime = 0 ∧ s.LogPath = "/tmp/app.log" ∧
      (GetProjectState envLive42 dbStale "app").2 = dbStale.put (stateKey "app") (.state s) ∧
      ∀ k, k ≠ stateKey "app" →
        (GetProjectState envLive42 dbStale "app").2.get k = dbStale.get k :=
  (GetProjectState_reconcile_persisted envLive42 dbStale "app").1
    (.state { PID := 7, StartTime := 100, LogPath := "/tmp/app.log" }) rfl (by decide) rfl

/-! ## The exit of a monitored process -/

/-- The decision of the goroutine on the raw answer of `command.Wait()`. -/
theorem monitorExit_restart_raw (env : Env) (w : World) (m : Monitor) (waited : WaitResult)
    (now : Time) :
    ((waited.procError = true ∧ waited.status ≠ 9 ∧ waited.status ≠ 0) →
      (monitorExit env w m waited now).restart =
        some (StartProject env
          { w with db := (SaveProjectState w.db m.launch.packageName
              { m.runningProjectState with EndTime := now, PID := 0 }).2 }
          m.launch.packageName m.launch.clusterProcesses m.launch.procStateChannel) ∧
      Event.start m.launch.packageName m.launch.clusterProcesses m.launch.procStateChannel
        ∈ (monitorExit env w m waited now).trace) ∧
    (¬ (waited.procError = true ∧ waited.status ≠ 9 ∧ waited.status ≠ 0) →
      (monitorExit env w m waited now).restart = none ∧
      (monitorExit env w m waited now).world =
        { w with db := (SaveProjectState w.db m.launch.packageName
            { m.runningProjectState with EndTime := now, PID := 0 }).2 } ∧
      (monitorExit env w m waited now).trace =
        [Event.save m.launch.packageName { m.runningProjectState with EndTime := now, PID := 0 }]
          ++ deliver m.launch.procStateChannel
            { m.runningProjectState with EndTime := now, PID := 0 }) := by
  constructor
  · rintro ⟨hp, h9, h0⟩
    simp [monitorExit, hp, h9, h0]
  · intro hn
    unfold monitorExit
    by_cases hp : waited.procError = true
    · have h2 : ¬ (waited.status ≠ 9 ∧ waited.status ≠ 0) := fun h => hn ⟨hp, h⟩
      simp only [hp, if_true, h2, if_false]
      exact ⟨trivial, trivial, trivial⟩
    · simp [hp]

theorem Termination.status_signaled_core (sig : Nat) (h1 : 1 ≤ sig) (h2 : sig < 0x7F) :
    (Termination.signaled sig true).status ≠ 9 ∧ (Termination.signaled sig true).status ≠ 0 := by
  simp only [Termination.status, if_true]
  interval_cases sig <;> decide

/-- On the terminations the kernel produces, the comparison of the raw status with 9 and 0
separates the crashes from SIGKILL and from a clean exit. -/
theorem Termination.raw_decision_iff (t : Termination) (ht : t.WellFormed) :
    (t.waited.procError = true ∧ t.waited.status ≠ 9 ∧ t.waited.status ≠ 0) ↔
      (t ≠ .exited 0 ∧ ∀ core, t ≠ .signaled SIGKILL core) := by
  cases t with
  | exited code =>
    have hs : (Termination.exited code).status = code * 256 := by
      simp [Termination.status, Nat.shiftLeft_eq]
    simp only [Termination.waited, Termination.Success, hs]
    by_cases hc : code = 0
    · simp [hc]
    · have h9 : code * 256 ≠ 9 := by omega
      have h0 : code * 256 ≠ 0 := by omega
      simp [hc, h9, h0]
  | signaled sig core =>
    obtain ⟨h1, h2, hk⟩ := ht
    cases core with
    | true =>
      have hs := Termination.status_signaled_core sig h1 h2
      have hne : sig ≠ 9 := fun h => by simpa using hk h
      simp only [Termination.waited, Termination.Success]
      constructor
      · intro _
        refine ⟨by simp, ?_⟩
        intro core h
        injection h with h _
        exact hne h
      · intro _
        exact ⟨by simp, hs.1, hs.2⟩
    | false =>
      have hs : (Termination.signaled sig false).status = sig := by
        simp [Termination.status]
      simp only [Termination.waited, Termination.Success, hs]
      constructor
      · rintro ⟨_, h9, _⟩
        refine ⟨by simp, ?_⟩
        intro core h
        injection h with h _
        exact h9 h
      · rintro ⟨_, h⟩
        refine ⟨by simp, ?_, by omega⟩
        intro h9
        exact h false (by rw [h9]; rfl)

/-- C2: after the child exits, the goroutine calls `StartProject` again, with the same
package name, instance count and channel, if and only if the exit is a crash, that is
neither a termination by SIGKILL nor an exit with status 0; every exit status 1..255 and
every other signal restarts. The decision is the comparison of the raw wait status with 9
and 0 (under a non-nil error of `command.Wait()`). -/
theorem monitorExit_restart_iff_crash (env : Env) (w : World) (m : Monitor) (t : Termination)
    (now : Time) (ht : t.WellFormed) :
    (((monitorExit env w m t.waited now).restart.isSome = true) ↔
        (t ≠ .exited 0 ∧ ∀ core, t ≠ .signaled SIGKILL core)) ∧
    (((monitorExit env w m t.waited now).restart.isSome = true) ↔
        (t.waited.procError = true ∧ t.waited.status ≠ 9 ∧ t.waited.status ≠ 0)) ∧
    ((Event.start m.launch.packageName m.launch.clusterProcesses m.launch.procStateChannel
        ∈ (monitorExit env w m t.waited now).trace) ↔
        (t ≠ .exited 0 ∧ ∀ core, t ≠ .signaled SIGKILL core)) ∧
    (∀ out, (monitorExit env w m t.waited now).restart = some out →
        out = StartProject env
          { w with db := (SaveProjectState w.db m.launch.packageName
              { m.runningProjectState with EndTime := now, PID := 0 }).2 }
          m.launch.packageName m.launch.clusterProcesses m.launch.procStateChannel) := by
  have hraw := monitorExit_restart_raw env w m t.waited now
  have hiff := Termination.raw_decision_iff t ht
  by_cases hd : t.waited.procError = true ∧ t.waited.status ≠ 9 ∧ t.waited.status ≠ 0
  · obtain ⟨hr, hev⟩ := hraw.1 hd
    refine ⟨?_, ?_, ?_, ?_⟩
    · rw [hr]; simpa using hiff.1 hd
    · rw [hr]; simpa using hd
    · exact ⟨fun _ => hiff.1 hd, fun _ => hev⟩
    · intro out ho
      rw [hr] at ho
      injection ho with ho
      exact ho.symm
  · obtain ⟨hr, _, htr⟩ := hraw.2 hd
    have hc : ¬ (t ≠ .exited 0 ∧ ∀ core, t ≠ .signaled SIGKILL core) := fun h => hd (hiff.2 h)
    refine ⟨?_, ?_, ?_, ?_⟩
    · rw [hr]; simpa using hc
    · rw [hr]; simpa using hd
    · constructor
      · intro hmem
        rw [htr] at hmem
        cases hch : m.launch.procStateChannel <;> simp [deliver, hch] at hmem
      · intro h; exact absurd h hc
    · intro out ho
      rw [hr] at ho
      cases ho

/-- C2 at an exit with status 1: the goroutine restarts the project. -/
theorem monitorExit_restart_iff_crash_witness :
    (Termination.exited 1).WellFormed ∧
      (monitorExit envLive42 worldEmpty monitorApp (Termination.exited 1).waited 200).restart.isSome
        = true :=
  ⟨by simp [Termination.WellFormed],
   (monitorExit_restart_iff_crash envLive42 worldEmpty monitorApp (.exited 1) 200
      (by simp [Termination.WellFormed])).1.2
      ⟨by simp, fun core => by simp⟩⟩

/-! ## Starting a project -/

/-- The goroutine a call of `StartProject` starts carries the arguments of the call, and it
is started exactly when the call returns no error. -/
theorem StartProject_launch (env : Env) (w : World) (packageName : String)
    (clusterProcesses : Int) (ch : Option Chan) :
    ((StartProject env w packageName clusterProcesses ch).err = none ↔
      (StartProject env w packageName clusterProcesses ch).launch.isSome = true) ∧
    (∀ l, (StartProject env w packageName clusterProcesses ch).launch = some l →
      l.packageName = packageName ∧ l.clusterProcesses = clusterProcesses ∧
      l.procStateChannel = ch) := by
  unfold StartProject
  cases GetProject w.db packageName with
  | error e => simp
  | ok projectData =>
    rcases GetProjectState env w.db packageName with ⟨r, db1⟩
    simp only []
    split
    · simp
    · split
      · simp
      · split
        · split <;> simp
        · simp

/-- C3: start-then-stop round trip. For a project that `StartProject` accepts (registered,
not running) and whose spawn succeeds with a PID `p ≠ 0`, the goroutine first persists and
delivers a state with PID `p` (running), the start time and the log path
`/tmp/<name>.log`; when the process is then killed by SIGKILL, it persists and delivers
exactly one further state, with PID 0, the end time, and log path and start time
unchanged, and it makes no restart call, so the goroutine ends there. -/
theorem start_stop_round_trip (env : Env) (w w1 w2 : World) (packageName : String)
    (clusterProcesses : Int) (ch : Chan) (l : Launch) (p : Int) (now1 now2 : Time)
    (hl : (StartProject env w packageName clusterProcesses (some ch)).launch = some l)
    (hp : p ≠ 0) :
    (StartProject env w packageName clusterProcesses (some ch)).err = none ∧
    (ProjectState.mk p now1 0 ("/tmp/" ++ packageName ++ ".log")).IsRunning = true ∧
    (monitorSpawn env w1 l (some p) now1).trace =
      [Event.exec l.mainScript l.projectData.WorkingDir ("/tmp/" ++ packageName ++ ".log"),
       Event.save packageName ⟨p, now1, 0, "/tmp/" ++ packageName ++ ".log"⟩,
       Event.send ch ⟨p, now1, 0, "/tmp/" ++ packageName ++ ".log"⟩] ∧
    (monitorSpawn env w1 l (some p) now1).world.db =
      w1.db.put (stateKey packageName)
        (.state ⟨p, now1, 0, "/tmp/" ++ packageName ++ ".log"⟩) ∧
    ∃ m, (monitorSpawn env w1 l (some p) now1).monitor = some m ∧
      (monitorExit env w2 m (Termination.signaled SIGKILL false).waited now2).trace =
        [Event.save packageName ⟨0, now1, now2, "/tmp/" ++ packageName ++ ".log"⟩,
         Event.send ch ⟨0, now1, now2, "/tmp/" ++ packageName ++ ".log"⟩] ∧
      (monitorExit env w2 m (Termination.signaled SIGKILL false).waited now2).world.db =
        w2.db.put (stateKey packageName)
          (.state ⟨0, now1, now2, "/tmp/" ++ packageName ++ ".log"⟩) ∧
      (ProjectState.mk 0 now1 now2 ("/tmp/" ++ packageName ++ ".log")).IsRunning = false ∧
      (monitorExit env w2 m (Termination.signaled SIGKILL false).waited now2).restart.isNone
        = true := by
  obtain ⟨hname, _, hch⟩ := (StartProject_launch env w packageName clusterProcesses (some ch)).2 l hl
  refine ⟨?_, (IsRunning_iff _).2 hp, ?_, ?_, ?_⟩
  · rw [(StartProject_launch env w packageName clusterProcesses (some ch)).1, hl]; rfl
  · simp [monitorSpawn, hname, hch, deliver]
  · simp [monitorSpawn, hname, SaveProjectState]
  · refine ⟨⟨l, p, ⟨p, now1, 0, "/tmp/" ++ packageName ++ ".log"⟩⟩, ?_, ?_⟩
    · simp [monitorSpawn, hname]
    · have hk : ¬ ((Termination.signaled SIGKILL false).waited.procError = true ∧
          (Termination.signaled SIGKILL false).waited.status ≠ 9 ∧
          (Termination.signaled SIGKILL false).waited.status ≠ 0) := by
        simp [Termination.waited, Termination.status, SIGKILL]
      obtain ⟨hr, hw, htr⟩ := (monitorExit_restart_raw env w2
        ⟨l, p, ⟨p, now1, 0, "/tmp/" ++ packageName ++ ".log"⟩⟩
        (Termination.signaled SIGKILL false).waited now2).2 hk
      refine ⟨?_, ?_, ?_, ?_⟩
      · rw [htr]; simp [hname, hch, deliver]
      · rw [hw]; simp [hname, SaveProjectState]
      · simp [ProjectState.IsRunning]
      · rw [hr]; rfl

/-- C3 at `app`, registered and never started, spawned as process 42 at instant 100 and
killed at instant 200. -/
theorem start_stop_round_trip_witness :
    (StartProject envLive42 worldApp "app" 0 (some 1)).launch = some launchApp ∧
    (42 : Int) ≠ 0 ∧
    (monitorSpawn envLive42 worldApp launchApp (some 42) 100).trace =
      [Event.exec "index.js" "/srv/app" "/tmp/app.log",
       Event.save "app" ⟨42, 100, 0, "/tmp/app.log"⟩,
       Event.send 1 ⟨42, 100, 0, "/tmp/app.log"⟩] :=
  ⟨rfl, by decide,
   (start_stop_round_trip envLive42 worldApp worldApp worldApp "app" 0 1 launchApp 42 100 200
      rfl (by decide)).2.2.1⟩

theorem GetProject_absent (db : DB) (packageName : String)
    (h : db.get (projectKey packageName) = none) :
    GetProject db packageName = .error errNotFound := by
  simp [GetProject, h]

theorem GetProject_present (db : DB) (packageName : String) (doc : Doc)
    (h : db.get (projectKey packageName) = some doc) :
    GetProject db packageName = .ok (unmarshalProject doc) := by
  simp [GetProject, h]

/-- The store a call of `StartProject` leaves is the store its reconciling read leaves,
or the store it found when the project is not registered. -/
theorem StartProject_db (env : Env) (w : World) (packageName : String)
    (clusterProcesses : Int) (ch : Option Chan) :
    (StartProject env w packageName clusterProcesses ch).world.db = w.db ∨
    (StartProject env w packageName clusterProcesses ch).world.db
      = (GetProjectState env w.db packageName).2 := by
  unfold StartProject
  cases GetProject w.db packageName with
  | error e => left; rfl
  | ok projectData =>
    right
    rcases GetProjectState env w.db packageName with ⟨r, db1⟩
    simp only []
    split
    · rfl
    · split
      · rfl
      · split
        · split <;> rfl
        · rfl

/-- A registered project with a main script whose reconciled state is not running is
accepted when no launcher script is asked for: the goroutine is started with the main
script of the descriptor as its target. -/
theorem StartProject_accepts (env : Env) (w : World) (packageName : String)
    (clusterProcesses : Int) (ch : Option Chan) (doc : Doc)
    (hdoc : w.db.get (projectKey packageName) = some doc)
    (hst : ∀ st, (GetProjectState env w.db packageName).1 = .ok st → st.PID = 0)
    (hmain : (unmarshalProject doc).Package.GetMainScript ≠ "")
    (hn : clusterProcesses ≤ 0) :
    (StartProject env w packageName clusterProcesses ch).err = none ∧
    (StartProject env w packageName clusterProcesses ch).launch =
      some ⟨packageName, clusterProcesses, ch, (unmarshalProject doc).Package.GetMainScript,
        unmarshalProject doc⟩ := by
  have hn2 : ¬ clusterProcesses > 0 := by omega
  rcases hg : GetProjectState env w.db packageName with ⟨r, db1⟩
  rw [hg] at hst
  cases r with
  | error e => simp [StartProject, GetProject_present _ _ _ hdoc, hg, hmain, hn2]
  | ok st =>
    have h0 := hst st rfl
    have hrun : st.IsRunning = false := by simp [ProjectState.IsRunning, h0]
    simp [StartProject, GetProject_present _ _ _ hdoc, hg, hrun, hmain, hn2]

/-- C4: the rejections of `StartProject` in their order of precedence: "not found" when no
descriptor is stored; otherwise "already running" when the reconciled state has a nonzero
PID; otherwise "no main script" when the main script of the descriptor is empty. A project
without a state entry, or whose stored PID the operating system reports gone, is not
rejected as already running. -/
theorem StartProject_rejections (env : Env) (w : World) (packageName : String)
    (clusterProcesses : Int) (ch : Option Chan) :
    (w.db.get (projectKey packageName) = none →
      (StartProject env w packageName clusterProcesses ch).err = some "project is not found") ∧
    (∀ doc st, w.db.get (projectKey packageName) = some doc →
      (GetProjectState env w.db packageName).1 = .ok st → st.PID ≠ 0 →
      (StartProject env w packageName clusterProcesses ch).err
        = some "project is already running") ∧
    (∀ doc, w.db.get (projectKey packageName) = some doc →
      (∀ st, (GetProjectState env w.db packageName).1 = .ok st → st.PID = 0) →
      (unmarshalProject doc).Package.GetMainScript = "" →
      (StartProject env w packageName clusterProcesses ch).err
        = some "project has no main script") ∧
    (w.db.get (stateKey packageName) = none →
      (StartProject env w packageName clusterProcesses ch).err
        ≠ some "project is already running") ∧
    (∀ sdoc, w.db.get (stateKey packageName) = some sdoc →
      IsProcessRunning env (unmarshalState sdoc).PID = false →
      (StartProject env w packageName clusterProcesses ch).err
        ≠ some "project is already running") := by
  have hnot : (∀ st, (GetProjectState env w.db packageName).1 = .ok st → st.PID = 0) →
      (StartProject env w packageName clusterProcesses ch).err
        ≠ some "project is already running" := by
    intro hst
    unfold StartProject
    cases GetProject w.db packageName with
    | error e => simp
    | ok projectData =>
      rcases hg : GetProjectState env w.db packageName with ⟨r, db1⟩
      rw [hg] at hst
      cases r with
      | error e =>
        simp only []
        repeat' split
        all_goals simp_all
      | ok st =>
        have h0 := hst st rfl
        have hrun : st.IsRunning = false := by simp [ProjectState.IsRunning, h0]
        simp only [hrun]
        repeat' split
        all_goals simp_all
  refine ⟨?_, ?_, ?_, ?_, ?_⟩
  · intro h
    simp [StartProject, GetProject_absent _ _ h]
  · intro doc st hdoc hst hpid
    rcases hg : GetProjectState env w.db packageName with ⟨r, db1⟩
    rw [hg] at hst
    simp only at hst
    subst hst
    simp [StartProject, GetProject_present _ _ _ hdoc, hg, (IsRunning_iff st).2 hpid]
  · intro doc hdoc hst hmain
    rcases hg : GetProjectState env w.db packageName with ⟨r, db1⟩
    rw [hg] at hst
    cases r with
    | error e => simp [StartProject, GetProject_present _ _ _ hdoc, hg, hmain]
    | ok st =>
      have h0 := hst st rfl
      have hrun : st.IsRunning = false := by simp [ProjectState.IsRunning, h0]
      simp [StartProject, GetProject_present _ _ _ hdoc, hg, hrun, hmain]
  · intro h
    apply hnot
    intro st hst
    rw [GetProjectState_absent env w.db packageName h] at hst
    cases hst
  · intro sdoc hs hdead
    apply hnot
    intro st hst
    by_cases hp : (unmarshalState sdoc).PID = 0
    · rw [GetProjectState_fresh env w.db packageName sdoc hs (Or.inl hp)] at hst
      injection hst with hst
      rw [← hst]; exact hp
    · rw [GetProjectState_stale env w.db packageName sdoc hs hp hdead] at hst
      injection hst with hst
      rw [← hst]

/-- C4 at `app`: rejected as already running while process 42 is alive, and not so
rejected when the stored PID 7 is gone. -/
theorem StartProject_rejections_witness :
    (StartProject envLive42 worldRunningApp "app" 0 none).err
      = some "project is already running" ∧
    (StartProject envLive42 worldStaleApp "app" 0 none).err
      ≠ some "project is already running" :=
  ⟨(StartProject_rejections envLive42 worldRunningApp "app" 0 none).2.1
      (.project { WorkingDir := "/srv/app", Package := { Name := "app", Main := "index.js" } })
      { PID := 42, StartTime := 100, LogPath := "/tmp/app.log" } rfl rfl (by decide),
   (StartProject_rejections envLive42 worldStaleApp "app" 0 none).2.2.2.2
      (.state { PID := 7, StartTime := 100, LogPath := "/tmp/app.log" }) rfl rfl⟩

/-- When the spawn fails, the goroutine ends after the attempt: the store is untouched,
nothing is saved or delivered, and no monitor remains. -/
theorem monitorSpawn_failed (env : Env) (w : World) (l : Launch) (now : Time) :
    (monitorSpawn env w l none now).monitor = none ∧
    (monitorSpawn env w l none now).world.db = w.db ∧
    (monitorSpawn env w l none now).trace =
      [Event.exec l.mainScript l.projectData.WorkingDir ("/tmp/" ++ l.packageName ++ ".log")] := by
  simp [monitorSpawn]

/-- The errors `StartProject` can return. -/
theorem StartProject_err_values (env : Env) (w : World) (packageName : String)
    (clusterProcesses : Int) (ch : Option Chan) :
    (StartProject env w packageName clusterProcesses ch).err = none ∨
    (StartProject env w packageName clusterProcesses ch).err = some "project is not found" ∨
    (StartProject env w packageName clusterProcesses ch).err
      = some "project is already running" ∨
    (StartProject env w packageName clusterProcesses ch).err
      = some "project has no main script" ∨
    (StartProject env w packageName clusterProcesses ch).err
      = some "can\x27t create the cluster mode script" := by
  unfold StartProject
  cases GetProject w.db packageName with
  | error e => simp
  | ok projectData =>
    rcases GetProjectState env w.db packageName with ⟨r, db1⟩
    simp only []
    repeat' split
    all_goals simp

/-- C5 fails: `app` is registered and stopped, `StartProject` returns success, and the
spawn then fails, so no process was launched and no error reached the caller. -/
theorem StartProject_spawn_failure_unreported :
    (StartProject envLive42 worldApp "app" 0 (some 1)).err = none ∧
    (StartProject envLive42 worldApp "app" 0 (some 1)).launch = some launchApp ∧
    (monitorSpawn envLive42 worldApp launchApp none 100).monitor = none :=
  ⟨rfl, rfl, rfl⟩

/-- C5 as amended: `StartProject` returns before the spawn is attempted. It returns success
exactly when it has started the goroutine that attempts the launch, and its only errors
are the four rejections; the goroutine always attempts the launch, and when the operating
system fails to spawn the process it ends silently, leaving the store as it was, saving
and delivering nothing and keeping no monitor, whereas a successful spawn keeps one. -/
theorem StartProject_returns_before_spawn (env : Env) (w : World) (packageName : String)
    (clusterProcesses : Int) (ch : Option Chan) :
    ((StartProject env w packageName clusterProcesses ch).err = none ↔
      (StartProject env w packageName clusterProcesses ch).launch.isSome = true) ∧
    ((StartProject env w packageName clusterProcesses ch).err = none ∨
      (StartProject env w packageName clusterProcesses ch).err = some "project is not found" ∨
      (StartProject env w packageName clusterProcesses ch).err
        = some "project is already running" ∨
      (StartProject env w packageName clusterProcesses ch).err
        = some "project has no main script" ∨
      (StartProject env w packageName clusterProcesses ch).err
        = some "can\x27t create the cluster mode script") ∧
    (∀ l w1 started now,
      (StartProject env w packageName clusterProcesses ch).launch = some l →
      Event.exec l.mainScript l.projectData.WorkingDir ("/tmp/" ++ packageName ++ ".log")
        ∈ (monitorSpawn env w1 l started now).trace) ∧
    (∀ l w1 now,
      (monitorSpawn env w1 l none now).monitor = none ∧
      (monitorSpawn env w1 l none now).world.db = w1.db ∧
      (monitorSpawn env w1 l none now).trace =
        [Event.exec l.mainScript l.projectData.WorkingDir
          ("/tmp/" ++ l.packageName ++ ".log")]) ∧
    (∀ l w1 pid now, (monitorSpawn env w1 l (some pid) now).monitor.isSome = true) := by
  refine ⟨(StartProject_launch env w packageName clusterProcesses ch).1,
    StartProject_err_values env w packageName clusterProcesses ch, ?_, ?_, ?_⟩
  · intro l w1 started now hl
    obtain ⟨hname, _, _⟩ := (StartProject_launch env w packageName clusterProcesses ch).2 l hl
    cases started <;> simp [monitorSpawn, hname]
  · intro l w1 now
    exact monitorSpawn_failed env w1 l now
  · intro l w1 pid now
    simp [monitorSpawn]

/-- C5 as amended, at `app` registered and stopped: the call succeeds, so the goroutine
has been started, and a failing spawn leaves no monitor. -/
theorem StartProject_returns_before_spawn_witness :
    (StartProject envLive42 worldApp "app" 0 (some 1)).launch.isSome = true ∧
    (monitorSpawn envLive42 worldApp launchApp none 100).monitor = none :=
  ⟨(StartProject_returns_before_spawn envLive42 worldApp "app" 0 (some 1)).1.1 rfl,
   ((StartProject_returns_before_spawn envLive42 worldApp "app" 0 (some 1)).2.2.2.1
      launchApp worldApp 100).1⟩

/-- C6 fails: `app` has a stale state entry (PID 7, not alive) and the launcher script
cannot be created; `StartProject` is rejected, yet the state entry of `app` has been
rewritten with PID 0 by the reconciling read, so the store is not the one before the
call. -/
theorem StartProject_rejected_store_changed :
    (StartProject envNoCreate worldStaleApp "app" 2 none).err
      = some "can\x27t create the cluster mode script" ∧
    worldStaleApp.db.get (stateKey "app")
      = some (.state { PID := 7, StartTime := 100, LogPath := "/tmp/app.log" }) ∧
    (StartProject envNoCreate worldStaleApp "app" 2 none).world.db.get (stateKey "app")
      = some (.state { PID := 0, StartTime := 100, LogPath := "/tmp/app.log" }) ∧
    (StartProject envNoCreate worldStaleApp "app" 2 none).world.db ≠ worldStaleApp.db := by
  refine ⟨rfl, rfl, rfl, ?_⟩
  intro h
  have h2 := congrFun h (stateKey "app")
  revert h2
  decide

/-- The store after the reconciling read: the one before, or the one before with the
stale PID of the state entry replaced by 0. -/
theorem GetProjectState_db (env : Env) (db : DB) (packageName : String) :
    (GetProjectState env db packageName).2 = db ∨
    ∃ sdoc, db.get (stateKey packageName) = some sdoc ∧
      (unmarshalState sdoc).PID ≠ 0 ∧
      IsProcessRunning env (unmarshalState sdoc).PID = false ∧
      (GetProjectState env db packageName).2 =
        db.put (stateKey packageName) (.state { unmarshalState sdoc with PID := 0 }) := by
  rcases GetProjectState_cases env db packageName with ⟨_, hr⟩ | ⟨d, _, _, hr⟩ |
      ⟨d, hd, hp, ha, hr⟩
  · left; rw [hr]
  · left; rw [hr]
  · right; exact ⟨d, hd, hp, ha, by rw [hr]⟩

/-- C6 as amended: a `StartProject` call that is rejected, or whose spawn fails, changes
nothing in the store except that its reconciling read may replace a stale PID. The store
afterwards is the store before, or the store before with the state entry of the project
rewritten with PID 0, and the latter only when the stored PID was nonzero and the
operating system reports it gone; every descriptor entry is unchanged. -/
theorem StartProject_failure_store (env : Env) (w : World) (packageName : String)
    (clusterProcesses : Int) (ch : Option Chan) :
    ((StartProject env w packageName clusterProcesses ch).err ≠ none →
      ((StartProject env w packageName clusterProcesses ch).world.db = w.db ∨
        ∃ sdoc, w.db.get (stateKey packageName) = some sdoc ∧
          (unmarshalState sdoc).PID ≠ 0 ∧
          IsProcessRunning env (unmarshalState sdoc).PID = false ∧
          (StartProject env w packageName clusterProcesses ch).world.db =
            w.db.put (stateKey packageName)
              (.state { unmarshalState sdoc with PID := 0 })) ∧
      ∀ other, (StartProject env w packageName clusterProcesses ch).world.db.get
          (projectKey other) = w.db.get (projectKey other)) ∧
    (∀ l now, (StartProject env w packageName clusterProcesses ch).launch = some l →
      ((monitorSpawn env (StartProject env w packageName clusterProcesses ch).world
          l none now).world.db = w.db ∨
        ∃ sdoc, w.db.get (stateKey packageName) = some sdoc ∧
          (unmarshalState sdoc).PID ≠ 0 ∧
          IsProcessRunning env (unmarshalState sdoc).PID = false ∧
          (monitorSpawn env (StartProject env w packageName clusterProcesses ch).world
            l none now).world.db =
            w.db.put (stateKey packageName)
              (.state { unmarshalState sdoc with PID := 0 })) ∧
      ∀ other, (monitorSpawn env (StartProject env w packageName clusterProcesses ch).world
          l none now).world.db.get (projectKey other) = w.db.get (projectKey other)) ∧
    (w.db.get (projectKey packageName) = none →
      (StartProject env w packageName clusterProcesses ch).world.db = w.db) := by
  have hdb : (StartProject env w packageName clusterProcesses ch).world.db = w.db ∨
      ∃ sdoc, w.db.get (stateKey packageName) = some sdoc ∧
        (unmarshalState sdoc).PID ≠ 0 ∧
        IsProcessRunning env (unmarshalState sdoc).PID = false ∧
        (StartProject env w packageName clusterProcesses ch).world.db =
          w.db.put (stateKey packageName)
            (.state { unmarshalState sdoc with PID := 0 }) := by
    rcases StartProject_db env w packageName clusterProcesses ch with h | h
    · exact Or.inl h
    · rcases GetProjectState_db env w.db packageName with h2 | ⟨sdoc, h1, h2, h3, h4⟩
      · exact Or.inl (h.trans h2)
      · exact Or.inr ⟨sdoc, h1, h2, h3, h.trans h4⟩
  have hproj : ∀ other, (StartProject env w packageName clusterProcesses ch).world.db.get
      (projectKey other) = w.db.get (projectKey other) := by
    intro other
    rcases hdb with h | ⟨sdoc, _, _, _, h⟩
    · rw [h]
    · rw [h]
      exact DB.get_put_of_ne _ _ (projectKey_ne_stateKey other packageName)
  refine ⟨fun _ => ⟨hdb, hproj⟩, ?_, ?_⟩
  · intro l now _
    rw [(monitorSpawn_failed env _ l now).2.1]
    exact ⟨hdb, hproj⟩
  · intro h
    simp [StartProject, GetProject_absent _ _ h]

/-- C6 as amended, at the rejected call on the stale entry of `app`: the store afterwards
is the store before with the state entry rewritten with PID 0. -/
theorem StartProject_failure_store_witness :
    ((StartProject envNoCreate worldStaleApp "app" 2 none).world.db = worldStaleApp.db ∨
      ∃ sdoc, worldStaleApp.db.get (stateKey "app") = some sdoc ∧
        (unmarshalState sdoc).PID ≠ 0 ∧
        IsProcessRunning envNoCreate (unmarshalState sdoc).PID = false ∧
        (StartProject envNoCreate worldStaleApp "app" 2 none).world.db =
          worldStaleApp.db.put (stateKey "app")
            (.state { unmarshalState sdoc with PID := 0 })) ∧
    ∀ other, (StartProject envNoCreate worldStaleApp "app" 2 none).world.db.get
        (projectKey other) = worldStaleApp.db.get (projectKey other) :=
  (StartProject_failure_store envNoCreate worldStaleApp "app" 2 none).1
    (by
      have h : (StartProject envNoCreate worldStaleApp "app" 2 none).err
          = some "can\x27t create the cluster mode script" := rfl
      rw [h]
      simp)

/-! ## Stopping a project -/

theorem negInt_eq_neg (x : Int) (h1 : -(2 : Int) ^ 63 < x) (h2 : x < (2 : Int) ^ 63) :
    negInt x = -x := by
  unfold negInt wrapInt
  norm_num at h1 h2 ⊢
  omega

/-- C7 fails: `StopProject` answers a project without state entry with the same error as a
stopped one, "project is not running"; there is no separate not-found error. -/
theorem StopProject_missing_entry_not_running :
    dbApp.get (stateKey "app") = none ∧
    (StopProject envLive42 dbApp "app").err = some "project is not running" ∧
    (StopProject envLive42 dbStopped "app").err = some "project is not running" ∧
    (StopProject envLive42 dbApp "app").err = (StopProject envLive42 dbStopped "app").err :=
  ⟨rfl, rfl, rfl, rfl⟩

/-- C7 as amended: `StopProject` fails with the one error "project is not running" both
when the project has no state entry and when its reconciled state has PID 0, sending no
signal; in every other case it sends exactly one SIGKILL addressed to the negation of the
stored PID (the process group; Go's `-PID`, the mathematical negative for every PID in
the open 64-bit range), returns success, and leaves the store as it found it. -/
theorem StopProject_spec (env : Env) (db : DB) (packageName : String) :
    (db.get (stateKey packageName) = none →
      (StopProject env db packageName).err = some "project is not running" ∧
      (StopProject env db packageName).kills = [] ∧
      (StopProject env db packageName).db = db) ∧
    (∀ st, (GetProjectState env db packageName).1 = .ok st → st.PID = 0 →
      (StopProject env db packageName).err = some "project is not running" ∧
      (StopProject env db packageName).kills = []) ∧
    (∀ st, (GetProjectState env db packageName).1 = .ok st → st.PID ≠ 0 →
      (StopProject env db packageName).err = none ∧
      (StopProject env db packageName).kills = [(negInt st.PID, SIGKILL)] ∧
      (StopProject env db packageName).db = db ∧
      (∃ sdoc, db.get (stateKey packageName) = some sdoc ∧ (unmarshalState sdoc).PID = st.PID) ∧
      (-(2 : Int) ^ 63 < st.PID → st.PID < (2 : Int) ^ 63 → negInt st.PID = -st.PID)) := by
  refine ⟨?_, ?_, ?_⟩
  · intro h
    simp [StopProject, GetProjectState_absent env db packageName h]
  · intro st hst h0
    rcases hg : GetProjectState env db packageName with ⟨r, db1⟩
    rw [hg] at hst
    simp only at hst
    subst hst
    simp [StopProject, hg, ProjectState.IsRunning, h0]
  · intro st hst hp
    have hrun : st.IsRunning = true := (IsRunning_iff st).2 hp
    rcases GetProjectState_cases env db packageName with ⟨_, hr⟩ | ⟨d, hd, _, hr⟩ |
        ⟨d, _, _, _, hr⟩
    · rw [hr] at hst; cases hst
    · rw [hr] at hst
      injection hst with hst
      subst hst
      refine ⟨?_, ?_, ?_, ⟨d, hd, rfl⟩, negInt_eq_neg _⟩
      · simp [StopProject, hr, hrun]
      · simp [StopProject, hr, hrun]
      · simp [StopProject, hr, hrun]
    · rw [hr] at hst
      injection hst with hst
      subst hst
      exact absurd rfl hp

/-- C7 as amended, at `app` running as process 42: one SIGKILL goes to -42 and the store
is untouched. -/
theorem StopProject_spec_witness :
    (StopProject envLive42 worldRunningApp.db "app").err = none ∧
    (StopProject envLive42 worldRunningApp.db "app").kills = [(negInt 42, SIGKILL)] ∧
    negInt 42 = -42 ∧
    (StopProject envLive42 worldRunningApp.db "app").db = worldRunningApp.db :=
  ⟨((StopProject_spec envLive42 worldRunningApp.db "app").2.2
      { PID := 42, StartTime := 100, LogPath := "/tmp/app.log" } rfl (by decide)).1,
   ((StopProject_spec envLive42 worldRunningApp.db "app").2.2
      { PID := 42, StartTime := 100, LogPath := "/tmp/app.log" } rfl (by decide)).2.1,
   ((StopProject_spec envLive42 worldRunningApp.db "app").2.2
      { PID := 42, StartTime := 100, LogPath := "/tmp/app.log" } rfl (by decide)).2.2.2.2
      (by decide) (by decide),
   ((StopProject_spec envLive42 worldRunningApp.db "app").2.2
      { PID := 42, StartTime := 100, LogPath := "/tmp/app.log" } rfl (by decide)).2.2.1⟩

/-! ## Removing a project -/

theorem DB.delete_delete_put (db : DB) (k1 k2 : String) (v : Doc) :
    ((db.put k2 v).delete k1).delete k2 = (db.delete k1).delete k2 := by
  funext x
  by_cases h2 : x = k2 <;> by_cases h1 : x = k1 <;> simp [DB.delete, DB.put, h1, h2]

/-- C9: `RemoveProject` fails with the not-found error of the store when no descriptor is
stored; otherwise with "project is running" when the reconciled state has a nonzero PID;
otherwise it succeeds and deletes the descriptor entry and the state entry of the project
and no other key, after which `GetProject` and `GetProjectState` both fail for it. -/
theorem RemoveProject_spec (env : Env) (db : DB) (packageName : String) :
    (db.get (projectKey packageName) = none →
      RemoveProject env db packageName = (some errNotFound, db)) ∧
    (∀ doc st, db.get (projectKey packageName) = some doc →
      (GetProjectState env db packageName).1 = .ok st → st.PID ≠ 0 →
      (RemoveProject env db packageName).1 = some "project is running") ∧
    (∀ doc, db.get (projectKey packageName) = some doc →
      (∀ st, (GetProjectState env db packageName).1 = .ok st → st.PID = 0) →
      (RemoveProject env db packageName).1 = none ∧
      (RemoveProject env db packageName).2
        = (db.delete (projectKey packageName)).delete (stateKey packageName) ∧
      (RemoveProject env db packageName).2.get (projectKey packageName) = none ∧
      (RemoveProject env db packageName).2.get (stateKey packageName) = none ∧
      (∀ k, k ≠ projectKey packageName → k ≠ stateKey packageName →
        (RemoveProject env db packageName).2.get k = db.get k) ∧
      (∀ other, other ≠ packageName →
        (RemoveProject env db packageName).2.get (projectKey other)
          = db.get (projectKey other) ∧
        (RemoveProject env db packageName).2.get (stateKey other)
          = db.get (stateKey other)) ∧
      GetProject (RemoveProject env db packageName).2 packageName = .error errNotFound ∧
      (GetProjectState env (RemoveProject env db packageName).2 packageName).1
        = .error errNotFound) := by
  refine ⟨?_, ?_, ?_⟩
  · intro h
    simp [RemoveProject, GetProject_absent _ _ h]
  · intro doc st hdoc hst hp
    rcases hg : GetProjectState env db packageName with ⟨r, db1⟩
    rw [hg] at hst
    simp only at hst
    subst hst
    simp [RemoveProject, GetProject_present _ _ _ hdoc, hg, (IsRunning_iff st).2 hp]
  · intro doc hdoc hst
    have hdb : (RemoveProject env db packageName).1 = none ∧
        (RemoveProject env db packageName).2
          = (db.delete (projectKey packageName)).delete (stateKey packageName) := by
      rcases GetProjectState_cases env db packageName with ⟨_, hr⟩ | ⟨d, _, _, hr⟩ |
          ⟨d, _, _, _, hr⟩
      · simp [RemoveProject, GetProject_present _ _ _ hdoc, hr]
      · have h0 := hst _ (by rw [hr])
        have hrun : (unmarshalState d).IsRunning = false := by
          simp [ProjectState.IsRunning, h0]
        simp [RemoveProject, GetProject_present _ _ _ hdoc, hr, hrun]
      · simp [RemoveProject, GetProject_present _ _ _ hdoc, hr, ProjectState.IsRunning,
          DB.delete_delete_put]
    obtain ⟨herr, hfin⟩ := hdb
    have hpk : ((db.delete (projectKey packageName)).delete (stateKey packageName)).get
        (projectKey packageName) = none := by
      rw [DB.get_delete_of_ne _ (projectKey_ne_stateKey packageName packageName)]
      exact DB.get_delete_self _ _
    have hsk : ((db.delete (projectKey packageName)).delete (stateKey packageName)).get
        (stateKey packageName) = none := DB.get_delete_self _ _
    have hother : ∀ k, k ≠ projectKey packageName → k ≠ stateKey packageName →
        ((db.delete (projectKey packageName)).delete (stateKey packageName)).get k
          = db.get k := by
      intro k h1 h2
      rw [DB.get_delete_of_ne _ h2, DB.get_delete_of_ne _ h1]
    rw [hfin]
    refine ⟨herr, rfl, hpk, hsk, hother, ?_, GetProject_absent _ _ hpk, ?_⟩
    · intro other hne
      constructor
      · exact hother _ (fun h => hne (projectKey_inj.1 h)) (projectKey_ne_stateKey _ _)
      · exact hother _ (fun h => projectKey_ne_stateKey _ _ h.symm)
          (fun h => hne (stateKey_inj.1 h))
    · rw [GetProjectState_absent env _ packageName hsk]

/-- C9 at `app`: removal is rejected while process 42 runs, and accepted once the project
is stopped. -/
theorem RemoveProject_spec_witness :
    (RemoveProject envLive42 worldRunningApp.db "app").1 = some "project is running" ∧
    (RemoveProject envLive42 dbStopped "app").1 = none ∧
    GetProject (RemoveProject envLive42 dbStopped "app").2 "app" = .error errNotFound :=
  ⟨(RemoveProject_spec envLive42 worldRunningApp.db "app").2.1
      (.project { WorkingDir := "/srv/app", Package := { Name := "app", Main := "index.js" } })
      { PID := 42, StartTime := 100, LogPath := "/tmp/app.log" } rfl rfl (by decide),
   ((RemoveProject_spec envLive42 dbStopped "app").2.2
      (.project { WorkingDir := "/srv/app", Package := { Name := "app", Main := "index.js" } })
      rfl (fun st h => by
        have h2 : (GetProjectState envLive42 dbStopped "app").1
            = .ok { PID := 0, StartTime := 100, EndTime := 200, LogPath := "/tmp/app.log" } := rfl
        rw [h2] at h
        injection h with h
        rw [← h])).1,
   ((RemoveProject_spec envLive42 dbStopped "app").2.2
      (.project { WorkingDir := "/srv/app", Package := { Name := "app", Main := "index.js" } })
      rfl (fun st h => by
        have h2 : (GetProjectState envLive42 dbStopped "app").1
            = .ok { PID := 0, StartTime := 100, EndTime := 200, LogPath := "/tmp/app.log" } := rfl
        rw [h2] at h
        injection h with h
        rw [← h])).2.2.2.2.2.2.1⟩

/-! ## Registering a project -/

/-- C10: `AddProject` fails with "package.json is not found in <dir>" when the manifest
file cannot be read; otherwise with "package name is empty" when the declared name is
empty; otherwise with "main script definition is mandatory" when the declared main script
is empty, whatever start script the manifest declares; and succeeds in every other case.
In every failing case the store is left as it was. -/
theorem AddProject_spec (env : Env) (w : World) (workingDir : String) :
    (w.fs (workingDir ++ "/" ++ NodePackageFile) = none →
      AddProject env w workingDir
        = (some (NodePackageFile ++ " is not found in " ++ workingDir), w.db)) ∧
    (∀ bytes, w.fs (workingDir ++ "/" ++ NodePackageFile) = some bytes →
      (env.unmarshalPackage bytes).Name = "" →
      AddProject env w workingDir = (some "package name is empty", w.db)) ∧
    (∀ bytes, w.fs (workingDir ++ "/" ++ NodePackageFile) = some bytes →
      (env.unmarshalPackage bytes).Name ≠ "" →
      (env.unmarshalPackage bytes).GetMainScript = "" →
      AddProject env w workingDir = (some "main script definition is mandatory", w.db)) ∧
    (∀ bytes, w.fs (workingDir ++ "/" ++ NodePackageFile) = some bytes →
      (env.unmarshalPackage bytes).Name ≠ "" →
      (env.unmarshalPackage bytes).GetMainScript ≠ "" →
      (AddProject env w workingDir).1 = none) ∧
    ((AddProject env w workingDir).1 ≠ none → (AddProject env w workingDir).2 = w.db) := by
  refine ⟨?_, ?_, ?_, ?_, ?_⟩
  · intro h
    simp [AddProject, h]
  · intro bytes h hn
    simp [AddProject, h, hn]
  · intro bytes h hn hm
    simp [AddProject, h, hn, hm]
  · intro bytes h hn hm
    simp [AddProject, h, hn, hm]
  · cases h : w.fs (workingDir ++ "/" ++ NodePackageFile) with
    | none => simp [AddProject, h]
    | some bytes =>
      by_cases hn : (env.unmarshalPackage bytes).Name = ""
      · simp [AddProject, h, hn]
      · by_cases hm : (env.unmarshalPackage bytes).GetMainScript = ""
        · simp [AddProject, h, hn, hm]
        · simp [AddProject, h, hn, hm]

/-- C10 at a manifest that declares the name `app` and only a start script: the project
is rejected and the store stays empty. -/
theorem AddProject_spec_witness :
    AddProject envStartOnly worldManifest "/srv/app"
      = (some "main script definition is mandatory", worldManifest.db) :=
  (AddProject_spec envStartOnly worldManifest "/srv/app").2.2.1 manifestStartOnly
    rfl (by decide) rfl

/-- A successful `AddProject` has read a manifest with a name and a main script, and has
written the descriptor under the key of that name. -/
theorem AddProject_success (env : Env) (w : World) (workingDir : String) (bytes : String)
    (hfile : w.fs (workingDir ++ "/" ++ NodePackageFile) = some bytes)
    (hsucc : (AddProject env w workingDir).1 = none) :
    (env.unmarshalPackage bytes).Name ≠ "" ∧
    (env.unmarshalPackage bytes).GetMainScript ≠ "" ∧
    (AddProject env w workingDir).2 =
      w.db.put (projectKey (env.unmarshalPackage bytes).Name)
        (.project { WorkingDir := workingDir, Package := env.unmarshalPackage bytes }) := by
  by_cases hn : (env.unmarshalPackage bytes).Name = ""
  · simp [AddProject, hfile, hn] at hsucc
  · by_cases hm : (env.unmarshalPackage bytes).GetMainScript = ""
    · simp [AddProject, hfile, hn, hm] at hsucc
    · exact ⟨hn, hm, by simp [AddProject, hfile, hn, hm]⟩

/-- C11: register then get, and idempotence of registering. After a successful
`AddProject(workingDir)` whose manifest declares the name `n`, `GetProject(n)` succeeds and
returns the descriptor with that working directory and that manifest, whatever was stored
for `n` before; no other key of the store has changed, in particular no state entry; and
registering the same working directory again leaves the store as the first registration
left it. -/
theorem AddProject_get_round_trip (env : Env) (w : World) (workingDir : String)
    (bytes : String)
    (hfile : w.fs (workingDir ++ "/" ++ NodePackageFile) = some bytes)
    (hsucc : (AddProject env w workingDir).1 = none) :
    GetProject (AddProject env w workingDir).2 (env.unmarshalPackage bytes).Name
      = .ok { WorkingDir := workingDir, Package := env.unmarshalPackage bytes } ∧
    (∀ k, k ≠ projectKey (env.unmarshalPackage bytes).Name →
      (AddProject env w workingDir).2.get k = w.db.get k) ∧
    (∀ name, (AddProject env w workingDir).2.get (stateKey name)
      = w.db.get (stateKey name)) ∧
    AddProject env { w with db := (AddProject env w workingDir).2 } workingDir
      = (none, (AddProject env w workingDir).2) := by
  obtain ⟨hn, hm, hdb⟩ := AddProject_success env w workingDir bytes hfile hsucc
  rw [hdb]
  refine ⟨?_, ?_, ?_, ?_⟩
  · rw [GetProject_present _ _ _ (DB.get_put_self _ _ _)]
    rfl
  · intro k hk
    exact DB.get_put_of_ne _ _ hk
  · intro name
    exact DB.get_put_of_ne _ _ (fun h => projectKey_ne_stateKey _ _ h.symm)
  · simp [AddProject, hfile, hn, hm, DB.put_put]

/-- C11 at the manifest of `/srv/app`, which declares the name `app` and the main script
`index.js`, registered into an empty store. -/
theorem AddProject_get_round_trip_witness :
    (AddProject envMain worldManifestMain "/srv/app").1 = none ∧
    GetProject (AddProject envMain worldManifestMain "/srv/app").2 "app"
      = .ok { WorkingDir := "/srv/app", Package := { Name := "app", Main := "index.js" } } :=
  ⟨rfl, (AddProject_get_round_trip envMain worldManifestMain "/srv/app" manifestMain
      rfl rfl).1⟩

/-! ## The status of all projects -/

/-- The state a read returns for a project depends on the state entry of that project
only. -/
theorem GetProjectState_congr (env : Env) (db1 db2 : DB) (packageName : String)
    (h : db1.get (stateKey packageName) = db2.get (stateKey packageName)) :
    (GetProjectState env db1 packageName).1 = (GetProjectState env db2 packageName).1 := by
  unfold GetProjectState
  rw [h]
  cases db2.get (stateKey packageName) with
  | none => rfl
  | some doc =>
    simp only []
    split
    · split <;> rfl
    · rfl

/-- A read of one project leaves the state entries of the other projects alone. -/
theorem GetProjectState_other (env : Env) (db : DB) (packageName other : String)
    (hne : other ≠ packageName) :
    (GetProjectState env db packageName).2.get (stateKey other) = db.get (stateKey other) := by
  rcases GetProjectState_db env db packageName with h | ⟨sdoc, _, _, _, h⟩
  · rw [h]
  · rw [h]
    exact DB.get_put_of_ne _ _ (fun hk => hne (stateKey_inj.1 hk))

/-- A read of one project does not change what a later read returns, for any project. -/
theorem GetProjectState_stable (env : Env) (db : DB) (packageName other : String) :
    (GetProjectState env (GetProjectState env db packageName).2 other).1
      = (GetProjectState env db other).1 := by
  by_cases hne : other = packageName
  · subst hne
    rw [GetProjectState_idem]
  · exact GetProjectState_congr env _ _ other (GetProjectState_other env db packageName other hne)

/-- The map the loop of `GetStatus` builds: a name the iterator has yielded maps to the
state read for it in the store the loop started with, any other name is left as it was. -/
theorem statusLoop_map (env : Env) (projectIter : List (String × Doc)) :
    ∀ (stateMap : StatusMap) (db : DB) (name : String),
      (statusLoop env projectIter stateMap db).1 name =
        if name ∈ projectIter.map (fun e => (unmarshalProject e.2).Package.Name) then
          some (stateOrStopped (GetProjectState env db name).1)
        else stateMap name := by
  induction projectIter with
  | nil => intro stateMap db name; simp [statusLoop]
  | cons e rest ih =>
    intro stateMap db name
    obtain ⟨k, value⟩ := e
    simp only [statusLoop, List.map_cons, List.mem_cons]
    rw [ih]
    simp only [GetProjectState_stable]
    by_cases hr : name ∈ rest.map (fun e => (unmarshalProject e.2).Package.Name)
    · simp [hr]
    · by_cases hn : name = (unmarshalProject value).Package.Name
      · simp [hr, hn]
      · simp [hr, hn]

/-- Under the contract of the iterator, on a store whose descriptors carry their own name,
the names the loop of `GetStatus` sees are the names with a descriptor entry. -/
theorem projectIter_names (db : DB) (projectIter : List (String × Doc))
    (hit : IsProjectIter db projectIter) (hwf : DescriptorsNamed db) (name : String) :
    name ∈ projectIter.map (fun e => (unmarshalProject e.2).Package.Name) ↔
      (db.get (projectKey name)).isSome = true := by
  constructor
  · intro h
    obtain ⟨⟨k, v⟩, hmem, hname⟩ := List.mem_map.1 h
    obtain ⟨⟨n, hk⟩, hget⟩ := (hit.2 k v).1 hmem
    subst hk
    have hn := hwf n v hget
    simp only at hname
    rw [← hname, hn, hget]
    rfl
  · intro h
    obtain ⟨v, hv⟩ := Option.isSome_iff_exists.1 h
    have hmem := (hit.2 (projectKey name) v).2 ⟨⟨name, rfl⟩, hv⟩
    exact List.mem_map.2 ⟨(projectKey name, v), hmem, hwf name v hv⟩

/-- C12: on a store built by `AddProject` (every descriptor stored under the key of its own
name), `GetStatus` returns a map whose keys are exactly the names with a descriptor; each
of them maps to the reconciled state `GetProjectState` returns for it, and to a state with
PID 0 when it has no state entry, in which case `GetProjectState` itself fails with the
not-found error of the store. -/
theorem GetStatus_spec (env : Env) (db : DB) (projectIter : List (String × Doc))
    (hit : IsProjectIter db projectIter) (hwf : DescriptorsNamed db) :
    (∀ name, ((GetStatus env db projectIter).1 name).isSome = true ↔
      (db.get (projectKey name)).isSome = true) ∧
    (∀ name st, (db.get (projectKey name)).isSome = true →
      (GetProjectState env db name).1 = .ok st →
      (GetStatus env db projectIter).1 name = some st) ∧
    (∀ name, (db.get (projectKey name)).isSome = true →
      db.get (stateKey name) = none →
      (GetProjectState env db name).1 = .error errNotFound ∧
      (GetStatus env db projectIter).1 name = some { PID := 0 }) := by
  have hmap : ∀ name, (GetStatus env db projectIter).1 name =
      if (db.get (projectKey name)).isSome = true then
        some (stateOrStopped (GetProjectState env db name).1)
      else none := by
    intro name
    unfold GetStatus
    rw [statusLoop_map]
    by_cases h : (db.get (projectKey name)).isSome = true
    · rw [if_pos ((projectIter_names db projectIter hit hwf name).2 h), if_pos h]
    · rw [if_neg (fun hm => h ((projectIter_names db projectIter hit hwf name).1 hm)), if_neg h]
  refine ⟨?_, ?_, ?_⟩
  · intro name
    rw [hmap]
    by_cases h : (db.get (projectKey name)).isSome = true <;> simp [h]
  · intro name st hreg hst
    rw [hmap, if_pos hreg, hst]
    rfl
  · intro name hreg hnone
    rw [hmap, if_pos hreg, GetProjectState_absent env db name hnone]
    exact ⟨rfl, rfl⟩

theorem dbApp_named : DescriptorsNamed dbApp := by
  intro name doc h
  by_cases hk : projectKey name = projectKey "app"
  · have hn := projectKey_inj.1 hk
    subst hn
    have hd : dbApp.get (projectKey "app") = some docApp := rfl
    rw [hd] at h
    injection h with h
    rw [← h]
    rfl
  · simp [dbApp, DB.get, DB.put, DB.empty, hk] at h

theorem dbApp_iter : IsProjectIter dbApp [(projectKey "app", docApp)] := by
  refine ⟨by simp, ?_⟩
  intro k v
  constructor
  · intro h
    simp only [List.mem_singleton, Prod.mk.injEq] at h
    obtain ⟨hk, hv⟩ := h
    subst hk hv
    exact ⟨⟨"app", rfl⟩, rfl⟩
  · rintro ⟨_, hget⟩
    by_cases hk : k = projectKey "app"
    · subst hk
      have hd : dbApp.get (projectKey "app") = some docApp := rfl
      rw [hd] at hget
      injection hget with hget
      simp [hget]
    · simp [dbApp, DB.get, DB.put, DB.empty, hk] at hget

/-- C12 at `app`, registered and never started: `GetProjectState` fails, `GetStatus`
reports PID 0. -/
theorem GetStatus_spec_witness :
    (GetProjectState envLive42 dbApp "app").1 = .error errNotFound ∧
    (GetStatus envLive42 dbApp [(projectKey "app", docApp)]).1 "app" = some { PID := 0 } :=
  (GetStatus_spec envLive42 dbApp [(projectKey "app", docApp)] dbApp_iter dbApp_named).2.2
    "app" rfl rfl

/-- Registering keeps every descriptor under the key of its own name. -/
theorem AddProject_named (env : Env) (w : World) (workingDir : String)
    (hwf : DescriptorsNamed w.db) : DescriptorsNamed (AddProject env w workingDir).2 := by
  cases hfile : w.fs (workingDir ++ "/" ++ NodePackageFile) with
  | none => simpa [AddProject, hfile] using hwf
  | some bytes =>
    by_cases hn : (env.unmarshalPackage bytes).Name = ""
    · simpa [AddProject, hfile, hn] using hwf
    · by_cases hm : (env.unmarshalPackage bytes).GetMainScript = ""
      · simpa [AddProject, hfile, hn, hm] using hwf
      · have hdb : (AddProject env w workingDir).2 =
            w.db.put (projectKey (env.unmarshalPackage bytes).Name)
              (.project { WorkingDir := workingDir, Package := env.unmarshalPackage bytes }) := by
          simp [AddProject, hfile, hn, hm]
        rw [hdb]
        intro name doc h
        by_cases hk : projectKey name = projectKey (env.unmarshalPackage bytes).Name
        · rw [hk, DB.get_put_self] at h
          injection h with h
          rw [← h]
          exact (projectKey_inj.1 hk).symm
        · rw [DB.get_put_of_ne _ _ hk] at h
          exact hwf name doc h

/-- Writing a state entry keeps every descriptor under the key of its own name. -/
theorem SaveProjectState_named (db : DB) (packageName : String) (st : ProjectState)
    (hwf : DescriptorsNamed db) : DescriptorsNamed (SaveProjectState db packageName st).2 := by
  intro name doc h
  simp only [SaveProjectState] at h
  rw [DB.get_put_of_ne _ _ (projectKey_ne_stateKey name packageName)] at h
  exact hwf name doc h

/-! ## The log reader -/

theorem flatMap_singleton_eq_map {α β : Type} (f : α → List β) (g : α → β) (l : List α)
    (h : ∀ a ∈ l, f a = [g a]) : l.flatMap f = l.map g := by
  induction l with
  | nil => rfl
  | cons a rest ih =>
    simp only [List.flatMap_cons, List.map_cons]
    rw [h a (List.mem_cons_self a rest), ih (fun b hb => h b (List.mem_cons_of_mem a hb))]
    rfl

/-- Whatever its second argument, `GetProjectLogContent` returns the log from its first
line: when no line is longer than `numOfLines`, or `numOfLines` is not positive, the result
is the list of all lines of the file. -/
theorem GetProjectLogContent_all_lines (env : Env) (w : World) (packageName : String)
    (numOfLines : Int) (st : ProjectState) (content : String)
    (hst : (GetProjectState env w.db packageName).1 = .ok st)
    (hpath : st.LogPath ≠ "")
    (hfile : w.fs st.LogPath = some content)
    (hshort : numOfLines ≤ 0 ∨
      ∀ line ∈ readLines [] content.data, (line.length : Int) ≤ numOfLines) :
    (GetProjectLogContent env w packageName numOfLines).1
      = some (.ok ((readLines [] content.data).map String.mk)) := by
  rcases hg : GetProjectState env w.db packageName with ⟨r, db1⟩
  rw [hg] at hst
  simp only at hst
  subst hst
  have hsend : ∀ line ∈ readLines [] content.data,
      sendLine numOfLines line = [String.mk line] := by
    intro line hl
    unfold sendLine
    rcases hshort with h | h
    · rw [if_neg (fun hc => by omega)]
    · have := h line hl
      rw [if_neg (fun hc => by omega)]
  simp [GetProjectLogContent, hg, hpath, TailFile, hfile,
    flatMap_singleton_eq_map _ _ _ hsend]

/-- C13 fails on the code: with a log of seven lines and `numOfLines = 5`,
`GetProjectLogContent` returns all seven lines, from the first one, instead of the last
five; with a log of one line of eight characters it returns two pieces of that line, of
five and three characters. The argument is passed to the reader as a bound on the length
of a line. -/
theorem GetProjectLogContent_not_last_lines :
    (GetProjectLogContent envLive42 worldLog "app" 5).1
      = some (.ok ["l1", "l2", "l3", "l4", "l5", "l6", "l7"]) ∧
    (GetProjectLogContent envLive42 worldLongLine "app" 5).1
      = some (.ok ["abcde", "fgh"]) :=
  ⟨rfl, rfl⟩

/-! ## The launch target -/

theorem FS.put_overwrite (fs : FS) (path : String) (c c2 : String) :
    (fs.put path c).put path c2 = fs.put path c2 := by
  funext x
  by_cases hx : x = path <;> simp [FS.put, hx]

theorem FS.read_put (fs : FS) (path : String) (c : String) : (fs.put path c) path = some c := by
  simp [FS.put]

/-- Generating the launcher script twice in a row, with the same answers of the operating
system, leaves the files as generating it once. -/
theorem CreateClusterModeScript_idem (env : Env) (fs : FS) (project : Project)
    (processCount : Int) :
    CreateClusterModeScript env (CreateClusterModeScript env fs project processCount).2
      project processCount = CreateClusterModeScript env fs project processCount := by
  cases hc : env.create (env.filepathJoin project.WorkingDir ClusterModeScript) with
  | some e => simp [CreateClusterModeScript, hc]
  | none =>
    cases hw : env.write (env.filepathJoin project.WorkingDir ClusterModeScript) with
    | some e => simp [CreateClusterModeScript, hc, hw, FS.put_overwrite]
    | none => simp [CreateClusterModeScript, hc, hw, FS.put_overwrite]

/-- C14: launch target selection and launcher content, for a `StartProject` call on a
registered project that is not running and has the main script `e`. With `n > 0`, and the
operating system letting the file be created and written, the launcher is written to
`filepath.Join(workingDir, "cluster_mode_script.js")`, replacing what was there, and the
goroutine launches `cluster_mode_script.js` in the working directory; the content is the
template filled with `n` as the number of forks and with `./e` as the required script, a
function of `(e, n)` only. With `n ≤ 0` no file is written and the goroutine launches `e`.
Generating twice leaves the same files as generating once. -/
theorem StartProject_launch_target (env : Env) (w : World) (packageName : String)
    (n : Int) (ch : Option Chan) (doc : Doc)
    (hdoc : w.db.get (projectKey packageName) = some doc)
    (hst : ∀ st, (GetProjectState env w.db packageName).1 = .ok st → st.PID = 0)
    (hmain : (unmarshalProject doc).Package.GetMainScript ≠ "") :
    (0 < n →
      env.create (env.filepathJoin (unmarshalProject doc).WorkingDir ClusterModeScript) = none →
      env.write (env.filepathJoin (unmarshalProject doc).WorkingDir ClusterModeScript) = none →
      (StartProject env w packageName n ch).err = none ∧
      (StartProject env w packageName n ch).world.fs =
        w.fs.put (env.filepathJoin (unmarshalProject doc).WorkingDir ClusterModeScript)
          (getClusterModeScript ("./" ++ (unmarshalProject doc).Package.GetMainScript) n) ∧
      (StartProject env w packageName n ch).world.fs
          (env.filepathJoin (unmarshalProject doc).WorkingDir ClusterModeScript) =
        some (getClusterModeScript ("./" ++ (unmarshalProject doc).Package.GetMainScript) n) ∧
      (StartProject env w packageName n ch).launch =
        some ⟨packageName, n, ch, ClusterModeScript, unmarshalProject doc⟩) ∧
    (n ≤ 0 →
      (StartProject env w packageName n ch).err = none ∧
      (StartProject env w packageName n ch).world.fs = w.fs ∧
      (StartProject env w packageName n ch).launch =
        some ⟨packageName, n, ch, (unmarshalProject doc).Package.GetMainScript,
          unmarshalProject doc⟩) ∧
    (∀ l w1 started now, (StartProject env w packageName n ch).launch = some l →
      (monitorSpawn env w1 l started now).trace.head? =
        some (Event.exec (if 0 < n then ClusterModeScript
            else (unmarshalProject doc).Package.GetMainScript)
          (unmarshalProject doc).WorkingDir ("/tmp/" ++ packageName ++ ".log"))) ∧
    getClusterModeScript ("./" ++ (unmarshalProject doc).Package.GetMainScript) n =
      "\nvar cluster = require(\x27cluster\x27);\nif (cluster.isMaster) \x7b\n\tfor (var i = 0; i < "
        ++ toString n
        ++ "; i++) \x7b\n\t\tcluster.fork();\n\t\x7d\n\x7d else \x7b\n\t// Require main script path\n\trequire(\x27./"
        ++ (unmarshalProject doc).Package.GetMainScript
        ++ "\x27);\n\x7d\n" ∧
    (∀ fs, CreateClusterModeScript env
        (CreateClusterModeScript env fs (unmarshalProject doc) n).2 (unmarshalProject doc) n
      = CreateClusterModeScript env fs (unmarshalProject doc) n) := by
  have hrun : (match (GetProjectState env w.db packageName).1 with
      | .ok st => st.IsRunning
      | .error _ => false) = false := by
    cases hr : (GetProjectState env w.db packageName).1 with
    | error e => rfl
    | ok st =>
      have h0 := hst st hr
      simp [ProjectState.IsRunning, h0]
  have hpos : 0 < n →
      env.create (env.filepathJoin (unmarshalProject doc).WorkingDir ClusterModeScript) = none →
      env.write (env.filepathJoin (unmarshalProject doc).WorkingDir ClusterModeScript) = none →
      StartProject env w packageName n ch =
        { err := none,
          world := { db := (GetProjectState env w.db packageName).2,
                     fs := w.fs.put
                      (env.filepathJoin (unmarshalProject doc).WorkingDir ClusterModeScript)
                      (getClusterModeScript
                        ("./" ++ (unmarshalProject doc).Package.GetMainScript) n) },
          launch := some ⟨packageName, n, ch, ClusterModeScript, unmarshalProject doc⟩ } := by
    intro hn hc hw
    have hn2 : n > 0 := hn
    rcases hg : GetProjectState env w.db packageName with ⟨r, db1⟩
    rw [hg] at hrun
    simp only at hrun
    simp [StartProject, GetProject_present _ _ _ hdoc, hg, hrun, hmain, hn2,
      CreateClusterModeScript, hc, hw, FS.put_overwrite]
  have hnon := fun (h : n ≤ 0) => StartProject_accepts env w packageName n ch doc hdoc hst hmain h
  have hfs : n ≤ 0 → (StartProject env w packageName n ch).world.fs = w.fs := by
    intro h
    have hn2 : ¬ n > 0 := by omega
    rcases hg : GetProjectState env w.db packageName with ⟨r, db1⟩
    rw [hg] at hrun
    simp only at hrun
    simp [StartProject, GetProject_present _ _ _ hdoc, hg, hrun, hmain, hn2]
  refine ⟨?_, ?_, ?_, ?_, ?_⟩
  · intro hn hc hw
    rw [hpos hn hc hw]
    exact ⟨rfl, rfl, FS.read_put _ _ _, rfl⟩
  · intro h
    exact ⟨(hnon h).1, hfs h, (hnon h).2⟩
  · intro l w1 started now hl
    have hl2 := hl
    obtain ⟨hname, _, _⟩ := (StartProject_launch env w packageName n ch).2 l hl
    have htarget : l.mainScript = (if 0 < n then ClusterModeScript
        else (unmarshalProject doc).Package.GetMainScript) ∧
        l.projectData = unmarshalProject doc := by
      by_cases hn : 0 < n
      · have hn2 : n > 0 := hn
        rcases hg : GetProjectState env w.db packageName with ⟨r, db1⟩
        rw [hg] at hrun
        simp only at hrun
        simp only [StartProject, GetProject_present _ _ _ hdoc, hg, hrun, hmain, hn2] at hl2
        simp only [Bool.false_eq_true, if_false, if_true] at hl2
        revert hl2
        split
        · intro hl2; cases hl2
        · intro hl2
          injection hl2 with hl2
          subst hl2
          simp [hn]
      · have hle : n ≤ 0 := by omega
        rw [(hnon hle).2] at hl2
        injection hl2 with hl2
        subst hl2
        simp [hn]
    cases started <;> simp [monitorSpawn, hname, htarget.1, htarget.2]
  · unfold getClusterModeScript
    congr 1
    rw [← String.append_assoc, String.append_assoc _ _ "./"]
    rfl
  · intro fs
    exact CreateClusterModeScript_idem env fs _ n

/-- C14 at `app` with four instances: the launcher lands in the working directory with 4
forks and `./index.js` as the required script, and it is the launched target. -/
theorem StartProject_launch_target_witness :
    (StartProject envLive42 worldApp "app" 4 none).world.fs "/srv/app/cluster_mode_script.js" =
      some "\nvar cluster = require(\x27cluster\x27);\nif (cluster.isMaster) \x7b\n\tfor (var i = 0; i < 4; i++) \x7b\n\t\tcluster.fork();\n\t\x7d\n\x7d else \x7b\n\t// Require main script path\n\trequire(\x27./index.js\x27);\n\x7d\n" ∧
    (StartProject envLive42 worldApp "app" 4 none).launch =
      some ⟨"app", 4, none, "cluster_mode_script.js",
        { WorkingDir := "/srv/app", Package := { Name := "app", Main := "index.js" } }⟩ :=
  ⟨((StartProject_launch_target envLive42 worldApp "app" 4 none docApp rfl
      (fun st h => by
        have h2 : (GetProjectState envLive42 worldApp.db "app").1 = .error errNotFound := rfl
        rw [h2] at h
        cases h)
      (by decide)).1 (by decide) rfl rfl).2.2.1,
   ((StartProject_launch_target envLive42 worldApp "app" 4 none docApp rfl
      (fun st h => by
        have h2 : (GetProjectState envLive42 worldApp.db "app").1 = .error errNotFound := rfl
        rw [h2] at h
        cases h)
      (by decide)).1 (by decide) rfl rfl).2.2.2⟩

/-! ## Interleavings of starts -/

/-- C15 fails: nothing serializes two starts of one project. In the schedule "start, start,
spawn, spawn" on a system where `app` is registered and stopped, the first `StartProject`
returns success, the second one, made before the goroutine of the first has spawned and
saved its PID, returns success too, both goroutines are pending together, and after both
have spawned two children of `app`, 42 and 43, are alive. -/
theorem StartProject_double_spawn :
    (StartProject (sysApp.env envQuiet) sysApp.world "app" 0 none).err = none ∧
    (StartProject ((sysApp.step envQuiet (.start "app" 0 none)).env envQuiet)
      (sysApp.step envQuiet (.start "app" 0 none)).world "app" 0 none).err = none ∧
    (Sys.run envQuiet sysApp [.start "app" 0 none, .start "app" 0 none]).pending.length = 2 ∧
    (Sys.run envQuiet sysApp
      [.start "app" 0 none, .start "app" 0 none,
       .spawn 0 (some 42) 100, .spawn 0 (some 43) 101]).live "app" = [42, 43] :=
  ⟨rfl, rfl, rfl, rfl⟩

/-- C15 as amended: a `StartProject` is rejected, starts no goroutine and leaves the store
as it is whenever the state entry of the project records a nonzero PID that the operating
system reports alive (with the error "project is already running" when the project is
registered); and a goroutine that spawns its child with PID `p` establishes exactly that:
after its step the state entry of its project records `p` and `p` is alive. Nothing is
promised for a start made before that write. -/
theorem StartProject_rejected_once_recorded (base : Env) (s : Sys) (packageName : String)
    (n : Int) (ch : Option Chan) :
    (∀ sdoc, s.world.db.get (stateKey packageName) = some sdoc →
      (unmarshalState sdoc).PID ≠ 0 →
      IsProcessRunning (s.env base) (unmarshalState sdoc).PID = true →
      (StartProject (s.env base) s.world packageName n ch).launch = none ∧
      (StartProject (s.env base) s.world packageName n ch).err ≠ none ∧
      ((s.world.db.get (projectKey packageName)).isSome = true →
        (StartProject (s.env base) s.world packageName n ch).err
          = some "project is already running") ∧
      (s.step base (.start packageName n ch)).pending = s.pending ∧
      (s.step base (.start packageName n ch)).monitors = s.monitors ∧
      (s.step base (.start packageName n ch)).world.db = s.world.db) ∧
    (∀ i l p now, s.pending[i]? = some l → p ≠ 0 → p ≠ -1 → base.findProcess p = true →
      (s.step base (.spawn i (some p) now)).world.db.get (stateKey l.packageName)
        = some (.state ⟨p, now, 0, "/tmp/" ++ l.packageName ++ ".log"⟩) ∧
      IsProcessRunning ((s.step base (.spawn i (some p) now)).env base) p = true) := by
  constructor
  · intro sdoc hs hp ha
    have hg := GetProjectState_fresh (s.env base) s.world.db packageName sdoc hs (Or.inr ha)
    have hrun : (unmarshalState sdoc).IsRunning = true := (IsRunning_iff _).2 hp
    have hout : (StartProject (s.env base) s.world packageName n ch).launch = none ∧
        (StartProject (s.env base) s.world packageName n ch).err ≠ none ∧
        ((s.world.db.get (projectKey packageName)).isSome = true →
          (StartProject (s.env base) s.world packageName n ch).err
            = some "project is already running") ∧
        (StartProject (s.env base) s.world packageName n ch).world.db = s.world.db := by
      cases hd : s.world.db.get (projectKey packageName) with
      | none => simp [StartProject, GetProject_absent _ _ hd]
      | some doc => simp [StartProject, GetProject_present _ _ _ hd, hg, hrun]
    obtain ⟨h1, h2, h3, h4⟩ := hout
    refine ⟨h1, h2, h3, ?_, rfl, ?_⟩
    · simp [Sys.step, h1]
    · simpa [Sys.step] using h4
  · intro i l p now hl hp0 hp1 hfind
    constructor
    · simp [Sys.step, hl, monitorSpawn, SaveProjectState]
    · simp [Sys.step, hl, monitorSpawn, Sys.env, IsProcessRunning, signal0, hp0, hp1, hfind]

/-- C15 as amended, at the schedule "start, spawn" of `app`: the state entry records the
live child 42 and a further start is rejected as already running. -/
theorem StartProject_rejected_once_recorded_witness :
    (StartProject ((Sys.run envQuiet sysApp
        [.start "app" 0 none, .spawn 0 (some 42) 100]).env envQuiet)
      (Sys.run envQuiet sysApp [.start "app" 0 none, .spawn 0 (some 42) 100]).world
      "app" 0 none).err = some "project is already running" :=
  ((StartProject_rejected_once_recorded envQuiet
      (Sys.run envQuiet sysApp [.start "app" 0 none, .spawn 0 (some 42) 100])
      "app" 0 none).1
    (.state ⟨42, 100, 0, "/tmp/app.log"⟩) rfl (by decide) rfl).2.2.1 rfl

end Bpm
